import Mathlib

/-!
# DigiAsset identifier derivation (`assetIdEncoder.js`)

A shallow embedding of `src/assetIdEncoder.js` and the properties of its
specification.

Modelling conventions.

* A `Buffer` is a list of byte values (`List Nat`, every entry below 256 for the
  buffers the program builds itself).
* A JavaScript string is a `String`; an optional property is an `Option`
  (`none` is `undefined`), and truthiness of a string property is `truthy`.
* A call either returns a value or throws: `Except Err α`.  The function
  exported by the module returns a string or `undefined`: `Option String`.
* `padLeadingZeros` is recursive and need not reach its base case; the first
  argument of the model (`fuel`) is the depth of call stack available, and
  exhausting it throws `Err.rangeError` as the JavaScript engine does.
* The exported function assigns to `scriptSig.hex` and `scriptSig.asm` of its
  argument, so the model returns the transaction as the call leaves it next to
  the result.
* The external packages (`crypto-hashing`, the Base58Check and bech32 codecs, the
  script parser and classifier, the public key class) are not part of the
  repository: they are the fields of `Lib`, and the general statements are about
  an arbitrary `Lib`; the examples are evaluated on `sampleLib`, a table of
  values of the packages.  `console.log` and `debug` output is not modelled, but
  the evaluation of the arguments of `debug` is.
* Numbers are non-negative integers (`vout`, `divisibility`, the paddings), so
  that `index` is appended to the text `txid:` in decimal and `toString(16)` is
  the hexadecimal numeral.
-/

namespace AssetId

set_option maxRecDepth 8000

/-! ## Values -/

/-- Byte sequences (`Buffer`). -/
abbrev Buffer := List Nat

/-- What a call can throw. -/
inductive Err where
  /-- The value of `new Error(msg)` thrown by the source itself. -/
  | error (msg : String)
  /-- A `TypeError`: a property read on `undefined`. -/
  | typeError
  /-- A `RangeError`: the call stack is exhausted. -/
  | rangeError
  /-- An error thrown inside one of the external packages. -/
  | lib (msg : String)
  deriving DecidableEq

/-- Truthiness of an optional string property: `undefined` and `''` are falsy. -/
def truthy : Option String → Bool
  | none => false
  | some s => !(s == "")

/-- Value of a hexadecimal digit, upper or lower case. -/
def hexVal (c : Char) : Option Nat :=
  if '0' ≤ c ∧ c ≤ '9' then some (c.toNat - '0'.toNat)
  else if 'a' ≤ c ∧ c ≤ 'f' then some (c.toNat - 'a'.toNat + 10)
  else if 'A' ≤ c ∧ c ≤ 'F' then some (c.toNat - 'A'.toNat + 10)
  else none

/-- Decoding of pairs of hexadecimal digits, stopping at the first pair that is
not one (an odd last character is dropped). -/
def hexPairs : List Char → Buffer
  | c₁ :: c₂ :: rest =>
    match hexVal c₁, hexVal c₂ with
    | some h, some l => (16 * h + l) :: hexPairs rest
    | _, _ => []
  | _ => []

/-- The call `Buffer.from(s, 'hex')`. -/
def Buffer.fromHex (s : String) : Buffer := hexPairs s.data

/-- The call `n.toString(16)` on a non-negative integer. -/
def toString16 (n : Nat) : String := String.mk (Nat.toDigits 16 n)

/-- The bytes of a string in UTF-8.  For a string of ASCII characters that does
not begin with `0x` (a transaction id followed by `:` and a decimal index) these
are the bytes that `crypto-hashing` digests; the package reads a string that
begins with `0x` as hexadecimal and a character above U+007F as one byte, which
is not modelled. -/
def utf8Bytes (s : String) : Buffer :=
  (s.data.flatMap String.utf8EncodeChar).map UInt8.toNat

/-- The pieces of `s.split(' ')`, on lists of characters. -/
def splitSpace : List Char → List (List Char)
  | [] => [[]]
  | c :: cs =>
    if c = ' ' then [] :: splitSpace cs
    else match splitSpace cs with
      | [] => [[c]]
      | w :: ws => (c :: w) :: ws

/-! ## Constants (lines 7-23) -/

/-- The names that a property read on an object literal answers through
`Object.prototype`.  For these names `LOCKEPADDING[policy]` and
`UNLOCKEPADDING[policy]` are not `undefined` in the source: they are the inherited
function (the object `Object.prototype` for `__proto__`), whose `toString(16)` is
a text and not a numeral. -/
def inheritedKey (policy : String) : Bool :=
  decide (policy ∈ ["constructor", "__defineGetter__", "__defineSetter__", "hasOwnProperty",
    "__lookupGetter__", "__lookupSetter__", "isPrototypeOf", "propertyIsEnumerable",
    "toString", "valueOf", "__proto__", "toLocaleString"])

/-- The table `UNLOCKEPADDING`, looked up among its own properties.  This is the
value of `UNLOCKEPADDING[policy]` for every policy with
`inheritedKey policy = false`; for the names of `inheritedKey` the source reads
the inherited property, which has no counterpart in `Option Nat`, and `none` here
does not describe it. -/
def UNLOCKEPADDING (policy : String) : Option Nat :=
  if policy = "aggregatable" then some 0x2e37
  else if policy = "hybrid" then some 0x2e6b
  else if policy = "dispersed" then some 0x2e4e
  else none

/-- The table `LOCKEPADDING`, with the same convention: the value of
`LOCKEPADDING[policy]` for every policy with `inheritedKey policy = false`. -/
def LOCKEPADDING (policy : String) : Option Nat :=
  if policy = "aggregatable" then some 0x20ce
  else if policy = "hybrid" then some 0x2102
  else if policy = "dispersed" then some 0x20e4
  else none

def DGB_P2PKH : Nat := 0x1e
def BTC_TESTNET_P2PKH : Nat := 0x6f
def DGB_P2SH : Nat := 0x3f
def DGB_P2SH_LEGACY : Nat := 0x05
def BTC_TESTNET_P2SH : Nat := 0xc4

def NETWORKVERSIONS : List Nat :=
  [DGB_P2PKH, BTC_TESTNET_P2PKH, DGB_P2SH, DGB_P2SH_LEGACY, BTC_TESTNET_P2SH]

def POSTFIXBYTELENGTH : Nat := 2

/-- Opcode numbers of the script language used by the source. -/
def OP_DUP : Nat := 0x76
def OP_HASH160 : Nat := 0xa9
def OP_EQUAL : Nat := 0x87
def OP_EQUALVERIFY : Nat := 0x88
def OP_CHECKSIG : Nat := 0xac
def OP_PUSHDATA1 : Nat := 76
def OP_PUSHDATA2 : Nat := 77
def OP_PUSHDATA4 : Nat := 78

/-! ## `padLeadingZeros` (lines 25-30) -/

/-- The function `padLeadingZeros(hex, byteSize)`; `byteSize` is `none` when the
argument is omitted, and `!byteSize` also holds for `0`. -/
def padLeadingZeros : Nat → String → Option Nat → Except Err String
  | 0, _, _ => .error .rangeError
  | fuel + 1, hex, byteSize =>
    let byteSize : Nat :=
      match byteSize with
      | none => (hex.length + 1) / 2
      | some 0 => (hex.length + 1) / 2
      | some b => b
    if hex.length = byteSize * 2 then .ok hex
    else padLeadingZeros fuel ("0" ++ hex) (some byteSize)

/-- The byte size that a call of `padLeadingZeros` works with, from the length
of `hex` and the argument `byteSize`. -/
def effByteSize (len : Nat) : Option Nat → Nat
  | none => (len + 1) / 2
  | some 0 => (len + 1) / 2
  | some b => b

/-! ## Scripts of the `digibyte` package -/

/-- One element of `script.chunks`: pushed data carries `buf`, a bare opcode
does not. -/
structure Chunk where
  buf : Option Buffer
  len : Nat
  opcodenum : Nat
  deriving DecidableEq

/-- A script object. -/
structure Script where
  chunks : List Chunk
  deriving DecidableEq

/-- The call `buf.toString('hex')`. -/
def Buffer.toHex (b : Buffer) : String :=
  String.mk (b.flatMap fun x => [Nat.digitChar (x / 16 % 16), Nat.digitChar (x % 16)])

/-- Modelled from the spec: the `Script` class of the `digibyte` package is not
under src/.  `s.add(opcode)` appends the opcode as a chunk without data. -/
def Script.addOpcode (s : Script) (op : Nat) : Script :=
  ⟨s.chunks ++ [⟨none, 0, op⟩]⟩

/-- Modelled from the spec: the `Script` class of the `digibyte` package is not
under src/.  `s.add(buffer)` appends a data push whose opcode is the length of
the data when that is below `OP_PUSHDATA1`, and the push-data opcode of the
width of the length otherwise. -/
def Script.addBuffer (s : Script) (buf : Buffer) : Except Err Script :=
  let len := buf.length
  if len < OP_PUSHDATA1 then .ok ⟨s.chunks ++ [⟨some buf, len, len⟩]⟩
  else if len < 2 ^ 8 then .ok ⟨s.chunks ++ [⟨some buf, len, OP_PUSHDATA1⟩]⟩
  else if len < 2 ^ 16 then .ok ⟨s.chunks ++ [⟨some buf, len, OP_PUSHDATA2⟩]⟩
  else if len < 2 ^ 32 then .ok ⟨s.chunks ++ [⟨some buf, len, OP_PUSHDATA4⟩]⟩
  else .error (.lib "You can't push that much data")

/-- Little-endian bytes of `n` on `w` bytes. -/
def leBytes : Nat → Nat → Buffer
  | 0, _ => []
  | w + 1, n => n % 256 :: leBytes w (n / 256)

/-- Modelled from the spec: the `Script` class of the `digibyte` package is not
under src/.  The standard binary encoding of one chunk: the opcode byte, then
for a data push the length (for the push-data opcodes) and the data. -/
def Chunk.toBuffer (c : Chunk) : Buffer :=
  c.opcodenum % 256 ::
    match c.buf with
    | none => []
    | some b =>
      if c.opcodenum < OP_PUSHDATA1 then b
      else if c.opcodenum = OP_PUSHDATA1 then leBytes 1 c.len ++ b
      else if c.opcodenum = OP_PUSHDATA2 then leBytes 2 c.len ++ b
      else if c.opcodenum = OP_PUSHDATA4 then leBytes 4 c.len ++ b
      else []

/-- The call `script.toBuffer()`: the encodings of the chunks, in order. -/
def Script.toBuffer (s : Script) : Buffer := s.chunks.flatMap Chunk.toBuffer

/-! ## The external packages -/

/-- The value of `bech32.decode(address)`. -/
structure Bech32Result where
  pfx : String
  words : List Nat
  deriving DecidableEq

/-- The operations of the external packages that the source calls. -/
structure Lib where
  /-- The digest `hash.sha256` of `crypto-hashing`. -/
  sha256 : Buffer → Buffer
  /-- The digest `hash.ripemd160` of `crypto-hashing`. -/
  ripemd160 : Buffer → Buffer
  /-- A RIPEMD-160 digest has 20 bytes. -/
  ripemd160_length : ∀ b, (ripemd160 b).length = 20
  /-- The call `bs58check.encode(buffer)`. -/
  bs58checkEncode : Buffer → String
  /-- The call `bs58check.decode(string)`, which throws on a bad string. -/
  bs58checkDecode : String → Except Err Buffer
  /-- The call `bech32.decode(string)`. -/
  bech32Decode : String → Except Err Bech32Result
  /-- The call `bech32.fromWords(words)`. -/
  bech32FromWords : List Nat → Except Err Buffer
  /-- The call `new digibyte.Script(buffer)`. -/
  scriptFromBuffer : Buffer → Except Err Script
  /-- The call `digibyte.Script.fromASM(asm)`. -/
  scriptFromASM : Option String → Except Err Script
  /-- The call `new digibyte.Script(hex).toASM()`. -/
  scriptToASM : String → Except Err String
  /-- The classifier `script.isPublicKeyHashIn()`. -/
  isPublicKeyHashIn : Script → Bool
  /-- The classifier `script.isScriptHashIn()`. -/
  isScriptHashIn : Script → Bool
  /-- The hash that `buildPublicKeyHashOut(new digibyte.PublicKey(buffer))`
  pushes; the constructor throws on a buffer that is not a public key. -/
  publicKeyHash : Buffer → Except Err Buffer

/-! ## The transaction object -/

/-- The property `previousOutput` of an input. -/
structure PreviousOutput where
  hex : Option String
  deriving DecidableEq

/-- The property `scriptSig` of an input. -/
structure ScriptSig where
  hex : Option String
  asm : Option String
  deriving DecidableEq

/-- An element of `vin`. -/
structure Input where
  txid : String
  vout : Nat
  previousOutput : Option PreviousOutput
  scriptSig : Option ScriptSig
  address : Option String
  deriving DecidableEq

/-- An element of `dadata`. -/
structure Metadata where
  type : String
  lockStatus : Option Bool
  aggregationPolicy : Option String
  divisibility : Option Nat
  deriving DecidableEq

/-- The argument `digibyteTransaction`. -/
structure Transaction where
  txid : String
  dadata : Option (List Metadata)
  vin : List Input
  deriving DecidableEq

/-- What is hashed: a string (read as `utf8Bytes`, with the limits stated there)
or a buffer. -/
inductive Payload where
  | str (s : String)
  | buf (b : Buffer)
  deriving DecidableEq

/-- The bytes that the digest reads. -/
def Payload.bytes : Payload → Buffer
  | .str s => utf8Bytes s
  | .buf b => b

/-- The call `buffer.slice(start, stop)`, for `start ≤ stop`. -/
def Buffer.slice (b : Buffer) (start stop : Nat) : Buffer := (b.take stop).drop start

/-! ## `hashAndBase58CheckEncode` (lines 129-139) -/

/-- The local `concatenation` of `hashAndBase58CheckEncode`: the bytes handed to
`bs58check.encode`.  Reading `padding.toString(16)` of an `undefined` padding
(line 131) throws. -/
def concatenation (L : Lib) (fuel : Nat) (payloadToHash : Payload)
    (padding : Option Nat) (divisibility : Nat) : Except Err Buffer :=
  match padding with
  | none => .error .typeError
  | some padding =>
    let hash256 := L.sha256 payloadToHash.bytes
    let hash160 := L.ripemd160 hash256
    match padLeadingZeros fuel (toString16 padding) none with
    | .error e => .error e
    | .ok paddingHex =>
      match padLeadingZeros fuel (toString16 divisibility) (some POSTFIXBYTELENGTH) with
      | .error e => .error e
      | .ok divisibilityHex =>
        .ok (Buffer.fromHex paddingHex ++ hash160 ++ Buffer.fromHex divisibilityHex)

/-- The function `hashAndBase58CheckEncode(payloadToHash, padding, divisibility)`. -/
def hashAndBase58CheckEncode (L : Lib) (fuel : Nat) (payloadToHash : Payload)
    (padding : Option Nat) (divisibility : Nat) : Except Err String :=
  match concatenation L fuel payloadToHash padding divisibility with
  | .error e => .error e
  | .ok c => .ok (L.bs58checkEncode c)

/-! ## The derivations (lines 32-127) -/

/-- The function `createIdFromTxidIndex(txid, index, padding, divisibility)`. -/
def createIdFromTxidIndex (L : Lib) (fuel : Nat) (txid : String) (index : Nat)
    (padding : Option Nat) (divisibility : Nat) : Except Err String :=
  let str := txid ++ ":" ++ toString index
  hashAndBase58CheckEncode L fuel (.str str) padding divisibility

/-- The function `createIdFromPreviousOutputScriptPubKey`. -/
def createIdFromPreviousOutputScriptPubKey (L : Lib) (fuel : Nat)
    (previousOutputHex : String) (padding : Option Nat) (divisibility : Nat) :
    Except Err String :=
  let buffer := Buffer.fromHex previousOutputHex
  hashAndBase58CheckEncode L fuel (.buf buffer) padding divisibility

/-- The script `OP_DUP OP_HASH160 <hash> OP_EQUALVERIFY OP_CHECKSIG`, built by
successive `add` as in the source. -/
def pubKeyHashScript (hash : Buffer) : Except Err Script :=
  match ((Script.mk []).addOpcode OP_DUP |>.addOpcode OP_HASH160).addBuffer hash with
  | .error e => .error e
  | .ok s => .ok (s.addOpcode OP_EQUALVERIFY |>.addOpcode OP_CHECKSIG)

/-- The script `OP_HASH160 <hash> OP_EQUAL`, built by successive `add`. -/
def scriptHashScript (hash : Buffer) : Except Err Script :=
  match ((Script.mk []).addOpcode OP_HASH160).addBuffer hash with
  | .error e => .error e
  | .ok s => .ok (s.addOpcode OP_EQUAL)

/-- The function `createIdFromPubKeyHashInput(scriptSig, padding, divisibility)`,
with the `scriptSig` object as the call leaves it. -/
def createIdFromPubKeyHashInput (L : Lib) (fuel : Nat) (scriptSig : ScriptSig)
    (padding : Option Nat) (divisibility : Nat) : Except Err String × ScriptSig :=
  let filled : Except Err ScriptSig :=
    if truthy scriptSig.asm then .ok scriptSig
    else match L.scriptToASM (scriptSig.hex.getD "") with
      | .error e => .error e
      | .ok asm => .ok { scriptSig with asm := some asm }
  match filled with
  | .error e => (.error e, scriptSig)
  | .ok scriptSig =>
    match (splitSpace ((scriptSig.asm.getD "").data)).get? 1 with
    | none => (.error .typeError, scriptSig)
    | some publicKey =>
      let publicKey := hexPairs publicKey
      match L.publicKeyHash publicKey with
      | .error e => (.error e, scriptSig)
      | .ok hash =>
        match pubKeyHashScript hash with
        | .error e => (.error e, scriptSig)
        | .ok s =>
          (hashAndBase58CheckEncode L fuel (.buf s.toBuffer) padding divisibility, scriptSig)

/-- The function `createIdFromScriptHashInput(scriptSig, padding, divisibility)`. -/
def createIdFromScriptHashInput (L : Lib) (fuel : Nat) (scriptSig : ScriptSig)
    (padding : Option Nat) (divisibility : Nat) : Except Err String :=
  let parsed : Except Err Script :=
    if truthy scriptSig.hex then L.scriptFromBuffer (Buffer.fromHex (scriptSig.hex.getD ""))
    else match L.scriptFromASM scriptSig.asm with
      | .error e => .error e
      | .ok buffer => L.scriptFromBuffer buffer.toBuffer
  match parsed with
  | .error e => .error e
  | .ok script =>
    match script.chunks.getLast? with
    | none => .error .typeError
    | some last =>
      let redeem : Except Err Script :=
        match last.buf with
        | none => .ok ⟨[]⟩
        | some lastChunk => L.scriptFromBuffer lastChunk
      match redeem with
      | .error e => .error e
      | .ok redeem =>
        let redeemScriptChunks : List Buffer := redeem.chunks.map fun chunk =>
          match chunk.buf with
          | some b => b
          | none => Buffer.fromHex (toString16 chunk.opcodenum)
        let redeemScript := redeemScriptChunks.flatten
        match L.scriptFromBuffer redeemScript with
        | .error e => .error e
        | .ok rs =>
          match scriptHashScript (L.ripemd160 (L.sha256 rs.toBuffer)) with
          | .error e => .error e
          | .ok s => hashAndBase58CheckEncode L fuel (.buf s.toBuffer) padding divisibility

/-- The `try` block of `createIdFromAddress` (lines 80-104); `.ok none` is the
block ending without a `return`. -/
def createIdFromAddress.tryBlock (L : Lib) (fuel : Nat) (address : String)
    (padding : Option Nat) (divisibility : Nat) : Except Err (Option String) :=
  match L.bs58checkDecode address with
  | .error e => .error e
  | .ok addressBuffer =>
    let versionBuffer := addressBuffer.slice 0 1
    match versionBuffer.head? with
    | none => .error (.error "Unrecognized address network")
    | some version =>
      if version ∉ NETWORKVERSIONS then .error (.error "Unrecognized address network")
      else if version = DGB_P2SH ∨ version = DGB_P2SH_LEGACY ∨ version = BTC_TESTNET_P2SH then
        let scriptHash := addressBuffer.slice versionBuffer.length 21
        match scriptHashScript scriptHash with
        | .error e => .error e
        | .ok s =>
          match hashAndBase58CheckEncode L fuel (.buf s.toBuffer) padding divisibility with
          | .error e => .error e
          | .ok id => .ok (some id)
      else if version = DGB_P2PKH ∨ version = BTC_TESTNET_P2PKH then
        let pubKeyHash := addressBuffer.slice versionBuffer.length 21
        match pubKeyHashScript pubKeyHash with
        | .error e => .error e
        | .ok s =>
          match hashAndBase58CheckEncode L fuel (.buf s.toBuffer) padding divisibility with
          | .error e => .error e
          | .ok id => .ok (some id)
      else .ok none

/-- The `catch` block of `createIdFromAddress` (lines 106-125): whatever was
thrown is logged and dropped, and the address is read as bech32. -/
def createIdFromAddress.catchBlock (L : Lib) (fuel : Nat) (address : String)
    (padding : Option Nat) (divisibility : Nat) : Except Err (Option String) :=
  match L.bech32Decode address with
  | .error e => .error e
  | .ok result =>
    match L.bech32FromWords (result.words.drop 1) with
    | .error e => .error e
    | .ok data =>
      if data.length = 20 then
        match pubKeyHashScript data with
        | .error e => .error e
        | .ok s =>
          match hashAndBase58CheckEncode L fuel (.buf s.toBuffer) padding divisibility with
          | .error e => .error e
          | .ok id => .ok (some id)
      else if data.length = 32 then .ok none
      else .ok none

/-- The function `createIdFromAddress(address, padding, divisibility)`. -/
def createIdFromAddress (L : Lib) (fuel : Nat) (address : String)
    (padding : Option Nat) (divisibility : Nat) : Except Err (Option String) :=
  match createIdFromAddress.tryBlock L fuel address padding divisibility with
  | .ok r => .ok r
  | .error _ => createIdFromAddress.catchBlock L fuel address padding divisibility

/-! ## The exported function (lines 141-178) -/

/-- Lines 162-172: the `scriptSig` branch of the exported function, with the
`scriptSig` object as it leaves it; `.ok none` is the branch ending without a
`return`. -/
def module.exports.scriptSigBranch (L : Lib) (fuel : Nat) (scriptSig : ScriptSig)
    (padding : Option Nat) (divisibility : Nat) : Except Err (Option String) × ScriptSig :=
  let hex : Except Err String :=
    if truthy scriptSig.hex then .ok (scriptSig.hex.getD "")
    else match L.scriptFromASM scriptSig.asm with
      | .error e => .error e
      | .ok s => .ok s.toBuffer.toHex
  match hex with
  | .error e => (.error e, scriptSig)
  | .ok hex =>
    let scriptSig : ScriptSig := { scriptSig with hex := some hex }
    let buffer := Buffer.fromHex hex
    match L.scriptFromBuffer buffer with
    | .error e => (.error e, scriptSig)
    | .ok script =>
      if L.isPublicKeyHashIn script then
        match createIdFromPubKeyHashInput L fuel scriptSig padding divisibility with
        | (.error e, scriptSig) => (.error e, scriptSig)
        | (.ok id, scriptSig) => (.ok (some id), scriptSig)
      else if L.isScriptHashIn script then
        match createIdFromScriptHashInput L fuel scriptSig padding divisibility with
        | .error e => (.error e, scriptSig)
        | .ok id => (.ok (some id), scriptSig)
      else (.ok none, scriptSig)

/-- Lines 156-177: the derivation for an unlocked issuance, with the first input
as the call leaves it. -/
def module.exports.unlocked (L : Lib) (fuel : Nat) (firstInput : Input)
    (aggregationPolicy : String) (divisibility : Nat) : Except Err (Option String) × Input :=
  let padding := UNLOCKEPADDING aggregationPolicy
  let previousOutputHex : Option String :=
    match firstInput.previousOutput with
    | none => none
    | some po => if truthy po.hex then po.hex else none
  match previousOutputHex with
  | some hex =>
    match createIdFromPreviousOutputScriptPubKey L fuel hex padding divisibility with
    | .error e => (.error e, firstInput)
    | .ok id => (.ok (some id), firstInput)
  | none =>
    let fromScriptSig : Except Err (Option String) × Input :=
      match firstInput.scriptSig with
      | none => (.ok none, firstInput)
      | some scriptSig =>
        if truthy scriptSig.hex || truthy scriptSig.asm then
          match module.exports.scriptSigBranch L fuel scriptSig padding divisibility with
          | (r, scriptSig) => (r, { firstInput with scriptSig := some scriptSig })
        else (.ok none, firstInput)
    match fromScriptSig with
    | (.error e, firstInput) => (.error e, firstInput)
    | (.ok (some id), firstInput) => (.ok (some id), firstInput)
    | (.ok none, firstInput) =>
      match firstInput.address with
      | none => (.ok none, firstInput)
      | some address =>
        if truthy (some address) then
          (createIdFromAddress L fuel address padding divisibility, firstInput)
        else (.ok none, firstInput)

/-- The function exported by the module, `module.exports(digibyteTransaction)`:
the value returned or the error thrown, and the transaction as the call leaves
it.  `.ok none` is the return value `undefined`. -/
def module.exports (L : Lib) (fuel : Nat) (digibyteTransaction : Transaction) :
    Except Err (Option String) × Transaction :=
  match digibyteTransaction.dadata with
  | none => (.error (.error "Missing DigiAsset Metadata"), digibyteTransaction)
  | some [] => (.error .typeError, digibyteTransaction)
  | some (dadata0 :: _) =>
    if dadata0.type ≠ "issuance" then
      (.error (.error "Not An issuance transaction"), digibyteTransaction)
    else
      match dadata0.lockStatus with
      | none => (.error (.error "Missing Lock Status data"), digibyteTransaction)
      | some lockStatus =>
        let aggregationPolicy :=
          if truthy dadata0.aggregationPolicy then dadata0.aggregationPolicy.getD "" else "aggregatable"
        let divisibility := dadata0.divisibility.getD 0
        match digibyteTransaction.vin with
        | [] => (.error .typeError, digibyteTransaction)
        | firstInput :: rest =>
          if lockStatus then
            let padding := LOCKEPADDING aggregationPolicy
            match createIdFromTxidIndex L fuel firstInput.txid firstInput.vout padding divisibility with
            | .error e => (.error e, digibyteTransaction)
            | .ok id => (.ok (some id), digibyteTransaction)
          else
            match module.exports.unlocked L fuel firstInput aggregationPolicy divisibility with
            | (r, firstInput) => (r, { digibyteTransaction with vin := firstInput :: rest })

/-- The bytes of the locking script that `createIdFromAddress` builds for a
decoded address of version `v` and hash `h`: pay-to-pubkey-hash for the versions
`0x1e` and `0x6f`, pay-to-script-hash for the others. -/
def lockingScript (v : Nat) (h : Buffer) : Buffer :=
  if v = 0x1e ∨ v = 0x6f then 0x76 :: 0xa9 :: 0x14 :: h ++ [0x88, 0xac]
  else 0xa9 :: 0x14 :: h ++ [0x87]

/-! ## A table of values of the external packages

The examples below are evaluated on `sampleLib`.  Its digests, encodings and
decodings are the values that SHA-256, RIPEMD-160, Base58Check and bech32 take
at the inputs listed; on every other input each field takes a fixed default
(a zero digest, a thrown error), which no example relies on. -/

deriving instance DecidableEq for Except

/-- The hash160 of the compressed public key `samplePublicKey`. -/
def sampleHash : Buffer :=
  [0x75, 0x1e, 0x76, 0xe8, 0x19, 0x91, 0x96, 0xd4, 0x54, 0x94, 0x1c, 0x45, 0xd1, 0xb3, 0xa3,
   0x23, 0xf1, 0x43, 0x3b, 0xd6]

/-- A compressed public key (the generator of secp256k1). -/
def samplePublicKey : Buffer :=
  [0x02, 0x79, 0xbe, 0x66, 0x7e, 0xf9, 0xdc, 0xbb, 0xac, 0x55, 0xa0, 0x62, 0x95, 0xce, 0x87,
   0x0b, 0x07, 0x02, 0x9b, 0xfc, 0xdb, 0x2d, 0xce, 0x28, 0xd9, 0x59, 0xf2, 0x81, 0x5b, 0x16,
   0xf8, 0x17, 0x98]

/-- The pay-to-pubkey-hash locking script of `sampleHash`, in hexadecimal. -/
def sampleScriptHex : String := "76a914751e76e8199196d454941c45d1b3a323f1433bd688ac"

/-- The DigiByte pay-to-pubkey-hash address of `sampleHash` (version `0x1e`). -/
def sampleAddress : String := "DFpN6QqFfUm3gKNaxN6tNcab1FArL9cZLE"

/-- The Bitcoin main-network address of `sampleHash`: version byte `0x00`, which
is not in `NETWORKVERSIONS`. -/
def foreignAddress : String := "1BgGZ9tcN4rm9KBzDn7KprQz87SZ26SAMH"

/-- The bech32 address of the 20-byte witness program `sampleHash`, witness
version 0, prefix `dgb`. -/
def sampleBech32 : String := "dgb1qw508d6qejxtdg4y5r3zarvary0c5xw7kmudfnm"

/-- The same witness program under the prefix `bc` and witness version 1. -/
def sampleBech32Bc : String := "bc1pw508d6qejxtdg4y5r3zarvary0c5xw7k8e76x7"

/-- A bech32 address of a 32-byte witness program, witness version 0. -/
def sampleBech32Long : String :=
  "dgb1qrp33g0q5c5txsp9arysrx4k6zdkfs4nce4xj0gdcccefvpysxf3q9jdenw"

/-- The 5-bit words of `sampleBech32`: the witness version, then the program. -/
def sampleWords : List Nat :=
  [0, 14, 20, 15, 7, 13, 26, 0, 25, 18, 6, 11, 13, 8, 21, 4, 20, 3, 17, 2, 29, 3, 12, 29, 3, 4,
   15, 24, 20, 6, 14, 30, 22]

/-- The 5-bit words of `sampleBech32Long`. -/
def sampleWordsLong : List Nat :=
  [0, 3, 1, 17, 17, 8, 15, 0, 20, 24, 20, 11, 6, 16, 1, 5, 29, 3, 4, 16, 3, 6, 21, 22, 26, 2,
   13, 22, 9, 16, 21, 19, 24, 25, 21, 6, 18, 15, 8, 13, 24, 24, 24, 25, 9, 12, 1, 4, 16, 6, 9,
   17, 0]

/-- The transaction id of the examples: 64 characters `a`. -/
def sampleTxid : String :=
  "aaaaaaaaaaaaaaaaaaaaaaaaaaaaaaaaaaaaaaaaaaaaaaaaaaaaaaaaaaaaaaaa"

/-- The regrouping of 5-bit words into bytes done by `bech32.fromWords`: the
bits left over must be fewer than five and all zero. -/
def sampleFromWords : List Nat → Nat → Nat → Except Err Buffer
  | [], value, bits =>
    if bits ≥ 5 then .error (.lib "Excess padding")
    else if (value * 2 ^ (8 - bits)) % 256 ≠ 0 then .error (.lib "Non-zero padding")
    else .ok []
  | w :: ws, value, bits =>
    let value := value * 32 + w
    let bits := bits + 5
    if bits ≥ 8 then
      match sampleFromWords ws (value % 2 ^ (bits - 8)) (bits - 8) with
      | .error e => .error e
      | .ok out => .ok (value / 2 ^ (bits - 8) % 256 :: out)
    else sampleFromWords ws value bits

/-- The chunks that the script parser reads from a buffer: a byte from 1 to 75
pushes that many bytes, the push-data opcodes read their length first, any other
byte is an opcode. -/
def sampleParse : Nat → Buffer → List Chunk
  | 0, _ => []
  | _ + 1, [] => []
  | fuel + 1, op :: rest =>
    if 0 < op ∧ op < OP_PUSHDATA1 then
      ⟨some (rest.take op), op, op⟩ :: sampleParse fuel (rest.drop op)
    else if op = OP_PUSHDATA1 then
      let len := rest.headD 0
      ⟨some ((rest.drop 1).take len), len, op⟩ :: sampleParse fuel (rest.drop (1 + len))
    else if op = OP_PUSHDATA2 then
      let len := rest.headD 0 + 256 * (rest.drop 1).headD 0
      ⟨some ((rest.drop 2).take len), len, op⟩ :: sampleParse fuel (rest.drop (2 + len))
    else ⟨none, 0, op⟩ :: sampleParse fuel rest

/-- The test `isPublicKeyHashIn`: two pushes, a signature starting with `0x30`
and a public key of 33 or 65 bytes with a matching first byte. -/
def sampleIsPublicKeyHashIn (s : Script) : Bool :=
  match s.chunks with
  | [⟨some sig, _, _⟩, ⟨some pub, _, _⟩] =>
    sig.head? = some 0x30 &&
      ((pub.length = 65 && (pub.head? = some 4 || pub.head? = some 6 || pub.head? = some 7)) ||
       (pub.length = 33 && (pub.head? = some 3 || pub.head? = some 2)))
  | _ => false

/-- The assembly text of a script that consists of data pushes: the pushed data
in hexadecimal, separated by spaces. -/
def sampleToASM (s : Script) : String :=
  " ".intercalate (s.chunks.map fun c =>
    match c.buf with
    | some b => b.toHex
    | none => toString16 c.opcodenum)

/-- The table of values of the external packages used by the examples. -/
def sampleLib : Lib where
  sha256 b :=
    if b = utf8Bytes (sampleTxid ++ ":0") then
      [0xea, 0xec, 0xf1, 0x0f, 0x61, 0x12, 0x3a, 0xa5, 0x21, 0x65, 0xf2, 0x81, 0x55, 0xf8, 0x5a,
       0xcc, 0x65, 0xa7, 0xbb, 0x9a, 0x98, 0x9a, 0x46, 0xe8, 0x67, 0x04, 0x41, 0xb2, 0x46, 0x0d,
       0x77, 0xd8]
    else if b = Buffer.fromHex sampleScriptHex then
      [0x3f, 0x4a, 0xe1, 0xeb, 0x3e, 0x75, 0xf3, 0x57, 0x84, 0x91, 0x81, 0x1d, 0x27, 0xeb, 0x59,
       0xe2, 0x3a, 0x51, 0x2c, 0xf9, 0x0c, 0x73, 0xb1, 0x3c, 0x6a, 0xcd, 0x44, 0x99, 0xf7, 0xc4,
       0xd2, 0x8b]
    else List.replicate 32 0
  ripemd160 b :=
    if b = [0xea, 0xec, 0xf1, 0x0f, 0x61, 0x12, 0x3a, 0xa5, 0x21, 0x65, 0xf2, 0x81, 0x55, 0xf8,
        0x5a, 0xcc, 0x65, 0xa7, 0xbb, 0x9a, 0x98, 0x9a, 0x46, 0xe8, 0x67, 0x04, 0x41, 0xb2, 0x46,
        0x0d, 0x77, 0xd8] then
      [0xb4, 0xa3, 0xd0, 0x39, 0xc3, 0x13, 0x77, 0xf5, 0xed, 0xd0, 0xb0, 0xba, 0xda, 0xb0, 0xc8,
       0x19, 0xf8, 0xa2, 0x19, 0xe1]
    else if b = [0x3f, 0x4a, 0xe1, 0xeb, 0x3e, 0x75, 0xf3, 0x57, 0x84, 0x91, 0x81, 0x1d, 0x27,
        0xeb, 0x59, 0xe2, 0x3a, 0x51, 0x2c, 0xf9, 0x0c, 0x73, 0xb1, 0x3c, 0x6a, 0xcd, 0x44, 0x99,
        0xf7, 0xc4, 0xd2, 0x8b] then
      [0xcd, 0x7b, 0x44, 0xd0, 0xb0, 0x3f, 0x2d, 0x02, 0x6d, 0x1e, 0x58, 0x6d, 0x7a, 0xe1, 0x89,
       0x03, 0xb0, 0xd3, 0x85, 0xf6]
    else List.replicate 20 0
  ripemd160_length b := by
    dsimp only
    split_ifs <;> rfl
  bs58checkEncode b :=
    if b = [0x20, 0xce, 0xb4, 0xa3, 0xd0, 0x39, 0xc3, 0x13, 0x77, 0xf5, 0xed, 0xd0, 0xb0, 0xba,
        0xda, 0xb0, 0xc8, 0x19, 0xf8, 0xa2, 0x19, 0xe1, 0x00, 0x00] then
      "La8FWKSKkwrSUpUcfoRSZU4Rm7yfUHBEe4qmzg"
    else if b = [0x2e, 0x37, 0xcd, 0x7b, 0x44, 0xd0, 0xb0, 0x3f, 0x2d, 0x02, 0x6d, 0x1e, 0x58,
        0x6d, 0x7a, 0xe1, 0x89, 0x03, 0xb0, 0xd3, 0x85, 0xf6, 0x00, 0x00] then
      "Ua8DTA11P2Cnq19FFk48rx1huz79abM5JCBY2j"
    else if b = 0x1e :: sampleHash then sampleAddress
    else b.toHex
  bs58checkDecode s :=
    if s = sampleAddress then .ok (0x1e :: sampleHash)
    else if s = foreignAddress then .ok (0x00 :: sampleHash)
    else .error (.lib "bs58check.decode")
  bech32Decode s :=
    if s = sampleBech32 then .ok ⟨"dgb", sampleWords⟩
    else if s = sampleBech32Bc then .ok ⟨"bc", 1 :: sampleWords.drop 1⟩
    else if s = sampleBech32Long then .ok ⟨"dgb", sampleWordsLong⟩
    else .error (.lib "bech32.decode")
  bech32FromWords ws := sampleFromWords ws 0 0
  scriptFromBuffer b := .ok ⟨sampleParse b.length b⟩
  scriptFromASM _ := .error (.lib "Script.fromASM")
  scriptToASM hex := .ok (sampleToASM ⟨sampleParse (Buffer.fromHex hex).length (Buffer.fromHex hex)⟩)
  isPublicKeyHashIn := sampleIsPublicKeyHashIn
  isScriptHashIn _ := false
  publicKeyHash b :=
    if b = samplePublicKey then .ok sampleHash else .error (.lib "PublicKey")

/-- An unlocking script of the pay-to-pubkey-hash form, in hexadecimal: a push of
a one-byte stand-in for the signature (`30`) and a push of `samplePublicKey`. -/
def sampleScriptSigHex : String :=
  "0130210279be667ef9dcbbac55a06295ce870b07029bfcdb2dce28d959f2815b16f81798"

/-- The identifier of an unlocked aggregatable issuance of divisibility 0 whose
first input spends the pay-to-pubkey-hash output of `sampleHash`. -/
def sampleUnlockedId : String := "Ua8DTA11P2Cnq19FFk48rx1huz79abM5JCBY2j"

/-- The identifier of `lockedTx`. -/
def sampleLockedId : String := "La8FWKSKkwrSUpUcfoRSZU4Rm7yfUHBEe4qmzg"

/-- The metadata of `unlockedTx`. -/
def unlockedMetadata : Metadata := ⟨"issuance", some false, some "aggregatable", some 0⟩

/-- A locked aggregatable issuance of divisibility 0 spending output 0 of
`sampleTxid`. -/
def lockedTx : Transaction :=
  { txid := "f0", dadata := some [⟨"issuance", some true, some "aggregatable", some 0⟩],
    vin := [⟨sampleTxid, 0, none, none, none⟩] }

/-- An unlocked issuance whose first input is described by `previousOutput`,
`scriptSig` and `address`. -/
def unlockedTx (po : Option PreviousOutput) (ss : Option ScriptSig) (ad : Option String) :
    Transaction :=
  { txid := "f0", dadata := some [unlockedMetadata], vin := [⟨sampleTxid, 0, po, ss, ad⟩] }

/-! ## Parts of the derivations, named for the proofs -/

/-- Lines 50-56 of `createIdFromPubKeyHashInput`: the result once `scriptSig.asm`
is known to be `asm`. -/
def createIdFromPubKeyHashInput.fromAsm (L : Lib) (fuel : Nat) (asm : String)
    (padding : Option Nat) (divisibility : Nat) : Except Err String :=
  match (splitSpace asm.data).get? 1 with
  | none => .error .typeError
  | some publicKey =>
    match L.publicKeyHash (hexPairs publicKey) with
    | .error e => .error e
    | .ok hash =>
      match pubKeyHashScript hash with
      | .error e => .error e
      | .ok s => hashAndBase58CheckEncode L fuel (.buf s.toBuffer) padding divisibility

/-- Line 163: the value assigned to `scriptSig.hex`. -/
def module.exports.hexOf (L : Lib) (scriptSig : ScriptSig) : Except Err String :=
  if truthy scriptSig.hex then .ok (scriptSig.hex.getD "")
  else match L.scriptFromASM scriptSig.asm with
    | .error e => .error e
    | .ok s => .ok s.toBuffer.toHex

/-- Lines 164-172 of the exported function: what follows the assignment to
`scriptSig.hex`. -/
def module.exports.classified (L : Lib) (fuel : Nat) (scriptSig : ScriptSig)
    (padding : Option Nat) (divisibility : Nat) : Except Err (Option String) × ScriptSig :=
  match L.scriptFromBuffer (Buffer.fromHex (scriptSig.hex.getD "")) with
  | .error e => (.error e, scriptSig)
  | .ok script =>
    if L.isPublicKeyHashIn script then
      ((createIdFromPubKeyHashInput L fuel scriptSig padding divisibility).1.map some,
        (createIdFromPubKeyHashInput L fuel scriptSig padding divisibility).2)
    else if L.isScriptHashIn script then
      ((createIdFromScriptHashInput L fuel scriptSig padding divisibility).map some, scriptSig)
    else (.ok none, scriptSig)

/-- Line 67 of `createIdFromScriptHashInput`: the bytes that stand for one chunk
of the redeem script. -/
def createIdFromScriptHashInput.chunkBytes (chunk : Chunk) : Buffer :=
  match chunk.buf with
  | some b => b
  | none => Buffer.fromHex (toString16 chunk.opcodenum)

/-- Lines 67-68 of `createIdFromScriptHashInput`: the bytes rebuilt from the
chunks of the parsed redeem script, the local `redeemScript`. -/
def createIdFromScriptHashInput.redeemScript (redeem : Script) : Buffer :=
  (redeem.chunks.map createIdFromScriptHashInput.chunkBytes).flatten

/-- The bytes of the script that `createIdFromAddress` builds from the bytes
`hash` sliced out of a decoded address of version `v`, whatever their number (at
most 20): the push opcode is their number. -/
def slicedScript (v : Nat) (hash : Buffer) : Buffer :=
  if v = 0x1e ∨ v = 0x6f then 0x76 :: 0xa9 :: hash.length :: hash ++ [0x88, 0xac]
  else 0xa9 :: hash.length :: hash ++ [0x87]

/-! ## Further values of the external packages -/

/-- A one-of-one multi-signature redeem script: `OP_1`, a push of the 33 bytes of
`samplePublicKey`, `OP_1`, `OP_CHECKMULTISIG`. -/
def sampleRedeemScript : Buffer := [0x51, 0x21] ++ samplePublicKey ++ [0x51, 0xae]

/-- A script-hash unlocking script in hexadecimal: `OP_0`, a push of a one-byte
stand-in for the signature, and a push of `sampleRedeemScript`. -/
def sampleScriptHashSigHex : String :=
  "0001302551210279be667ef9dcbbac55a06295ce870b07029bfcdb2dce28d959f2815b16f8179851ae"

/-- The Base58Check encoding of the version byte `0x1e` followed by the first 19
bytes of `sampleHash`: a checksummed string that decodes to 20 bytes, not 21. -/
def shortAddress : String := "3n3aKu58rVwqe15teTz4wHfskZDAp5dDK"

/-- The identifier that an unlocked aggregatable issuance of divisibility 0 gets
from `shortAddress`. -/
def shortAddressId : String := "Ua6ZhHAZowyMSBSm2G6tnYADP8KujfiNv5eRVU"

/-- The table `sampleLib` with the values of the packages at `shortAddress` and
at the script `76 a9 13 <19 bytes> 88 ac` built from it. -/
def shortHashLib : Lib where
  sha256 b :=
    if b = 0x76 :: 0xa9 :: 0x13 :: sampleHash.take 19 ++ [0x88, 0xac] then
      [0x6f, 0xb9, 0xde, 0x24, 0x1c, 0x0b, 0x40, 0x84, 0xe7, 0x6c, 0x77, 0xad, 0xb0, 0x78, 0x60,
       0xb7, 0xdd, 0x8d, 0xf9, 0x1f, 0xf3, 0xa7, 0x14, 0x0d, 0x60, 0xe7, 0x68, 0x9c, 0x64, 0x53,
       0xd8, 0xde]
    else sampleLib.sha256 b
  ripemd160 b :=
    if b = [0x6f, 0xb9, 0xde, 0x24, 0x1c, 0x0b, 0x40, 0x84, 0xe7, 0x6c, 0x77, 0xad, 0xb0, 0x78,
        0x60, 0xb7, 0xdd, 0x8d, 0xf9, 0x1f, 0xf3, 0xa7, 0x14, 0x0d, 0x60, 0xe7, 0x68, 0x9c, 0x64,
        0x53, 0xd8, 0xde] then
      [0x97, 0x90, 0xab, 0xc1, 0x67, 0x5d, 0x63, 0xcf, 0x3d, 0x25, 0x21, 0x64, 0x99, 0x47, 0x2b,
       0x0e, 0xd6, 0x3a, 0xba, 0x3d]
    else sampleLib.ripemd160 b
  ripemd160_length b := by
    dsimp only
    split_ifs
    · rfl
    · exact sampleLib.ripemd160_length b
  bs58checkEncode b :=
    if b = [0x2e, 0x37, 0x97, 0x90, 0xab, 0xc1, 0x67, 0x5d, 0x63, 0xcf, 0x3d, 0x25, 0x21, 0x64,
        0x99, 0x47, 0x2b, 0x0e, 0xd6, 0x3a, 0xba, 0x3d, 0x00, 0x00] then shortAddressId
    else sampleLib.bs58checkEncode b
  bs58checkDecode s :=
    if s = shortAddress then .ok (0x1e :: sampleHash.take 19) else sampleLib.bs58checkDecode s
  bech32Decode := sampleLib.bech32Decode
  bech32FromWords := sampleLib.bech32FromWords
  scriptFromBuffer := sampleLib.scriptFromBuffer
  scriptFromASM := sampleLib.scriptFromASM
  scriptToASM := sampleLib.scriptToASM
  isPublicKeyHashIn := sampleLib.isPublicKeyHashIn
  isScriptHashIn := sampleLib.isScriptHashIn
  publicKeyHash := sampleLib.publicKeyHash

/-! ## Hexadecimal digits and padding -/

theorem toDigits16_one (n : Nat) (h : n < 16) : Nat.toDigits 16 n = [Nat.digitChar n] := by
  simp [Nat.toDigits, Nat.toDigitsCore, Nat.div_eq_of_lt h, Nat.mod_eq_of_lt h]

theorem toDigitsCore16_step (fuel n : Nat) (ds : List Char) (h : 16 ≤ n) :
    Nat.toDigitsCore 16 (fuel + 1) n ds = Nat.toDigitsCore 16 fuel (n / 16) (Nat.digitChar (n % 16) :: ds) := by
  have : n / 16 ≠ 0 := by omega
  simp [Nat.toDigitsCore, this]

theorem toDigitsCore16_last (fuel n : Nat) (ds : List Char) (h : n < 16) :
    Nat.toDigitsCore 16 (fuel + 1) n ds = Nat.digitChar n :: ds := by
  simp [Nat.toDigitsCore, Nat.div_eq_of_lt h, Nat.mod_eq_of_lt h]

theorem toDigits16_two (n : Nat) (h1 : 16 ≤ n) (h : n < 256) :
    Nat.toDigits 16 n = [Nat.digitChar (n / 16), Nat.digitChar (n % 16)] := by
  obtain ⟨m, rfl⟩ : ∃ m, n = m + 1 := ⟨n - 1, by omega⟩
  rw [Nat.toDigits, toDigitsCore16_step _ _ _ h1, toDigitsCore16_last _ _ _ (by omega)]

theorem toDigits16_three (n : Nat) (h1 : 256 ≤ n) (h : n < 4096) :
    Nat.toDigits 16 n =
      [Nat.digitChar (n / 256), Nat.digitChar (n / 16 % 16), Nat.digitChar (n % 16)] := by
  obtain ⟨m, rfl⟩ : ∃ m, n = m + 2 := ⟨n - 2, by omega⟩
  rw [Nat.toDigits, toDigitsCore16_step _ _ _ (by omega), toDigitsCore16_step _ _ _ (by omega),
    toDigitsCore16_last _ _ _ (by omega)]
  simp [Nat.div_div_eq_div_mul]

theorem toDigits16_four (n : Nat) (h1 : 4096 ≤ n) (h : n < 65536) :
    Nat.toDigits 16 n =
      [Nat.digitChar (n / 4096), Nat.digitChar (n / 256 % 16), Nat.digitChar (n / 16 % 16),
        Nat.digitChar (n % 16)] := by
  obtain ⟨m, rfl⟩ : ∃ m, n = m + 3 := ⟨n - 3, by omega⟩
  rw [Nat.toDigits, toDigitsCore16_step _ _ _ (by omega), toDigitsCore16_step _ _ _ (by omega),
    toDigitsCore16_step _ _ _ (by omega), toDigitsCore16_last _ _ _ (by omega)]
  simp [Nat.div_div_eq_div_mul]

theorem hexVal_digitChar (k : Nat) (h : k < 16) : hexVal (Nat.digitChar k) = some k := by
  interval_cases k <;> decide

theorem padLeadingZeros_succ (fuel : Nat) (cs : List Char) (b : Option Nat) :
    padLeadingZeros (fuel + 1) (String.mk cs) b =
      if cs.length = effByteSize cs.length b * 2 then .ok (String.mk cs)
      else padLeadingZeros fuel (String.mk ('0' :: cs)) (some (effByteSize cs.length b)) := by
  cases b with
  | none => rfl
  | some n => cases n <;> rfl

theorem padLeadingZeros_mono (fuel : Nat) : ∀ (cs : List Char) (b : Option Nat) (s : String),
    padLeadingZeros fuel (String.mk cs) b = .ok s →
      ∀ fuel', fuel ≤ fuel' → padLeadingZeros fuel' (String.mk cs) b = .ok s := by
  induction fuel with
  | zero => intro hex b s h; simp [padLeadingZeros] at h
  | succ k ih =>
    intro hex b s h fuel' hle
    obtain ⟨k', rfl⟩ : ∃ k', fuel' = k' + 1 := ⟨fuel' - 1, by omega⟩
    rw [padLeadingZeros_succ] at h ⊢
    split at h
    · rename_i heq
      rw [if_pos heq]; exact h
    · rename_i hne
      rw [if_neg hne]
      exact ih _ _ _ h _ (by omega)

/-- Padding to two bytes (at most three added characters). -/
theorem padLeadingZeros_two (fuel : Nat) (hf : 4 ≤ fuel) (cs : List Char) (hl : 1 ≤ cs.length)
    (h4 : cs.length ≤ 4) :
    padLeadingZeros fuel (String.mk cs) (some 2) =
      .ok (String.mk (List.replicate (4 - cs.length) '0' ++ cs)) := by
  obtain ⟨k, rfl⟩ : ∃ k, fuel = k + 4 := ⟨fuel - 4, by omega⟩
  match cs, hl, h4 with
  | [a], _, _ => simp [padLeadingZeros_succ, effByteSize, List.replicate]
  | [a, b], _, _ => simp [padLeadingZeros_succ, effByteSize, List.replicate]
  | [a, b, c], _, _ => simp [padLeadingZeros_succ, effByteSize, List.replicate]
  | [a, b, c, d], _, _ => simp [padLeadingZeros_succ, effByteSize, List.replicate]

/-- Padding to the natural width: at most one added character. -/
theorem padLeadingZeros_none (fuel : Nat) (hf : 2 ≤ fuel) (cs : List Char) :
    padLeadingZeros fuel (String.mk cs) none =
      .ok (String.mk (if cs.length % 2 = 0 then cs else '0' :: cs)) := by
  obtain ⟨k, rfl⟩ : ∃ k, fuel = k + 2 := ⟨fuel - 2, by omega⟩
  rw [padLeadingZeros_succ]
  by_cases h : cs.length % 2 = 0
  · have : cs.length = effByteSize cs.length none * 2 := by simp [effByteSize]; omega
    rw [if_pos this, if_pos h]
  · have : ¬ cs.length = effByteSize cs.length none * 2 := by simp [effByteSize]; omega
    rw [if_neg this, if_neg h, padLeadingZeros_succ]
    have h2 : ('0' :: cs).length = effByteSize ('0' :: cs).length (some (effByteSize cs.length none)) * 2 := by
      have : effByteSize cs.length none = (cs.length + 1) / 2 := rfl
      rw [this]
      have hpos : (cs.length + 1) / 2 ≠ 0 := by omega
      obtain ⟨m, hm⟩ : ∃ m, (cs.length + 1) / 2 = m + 1 := ⟨(cs.length + 1) / 2 - 1, by omega⟩
      rw [hm]; simp only [effByteSize, List.length_cons]; omega
    rw [if_pos h2]

theorem padLeadingZeros_none_of_ok (fuel : Nat) (cs : List Char) (s : String)
    (h : padLeadingZeros fuel (String.mk cs) none = .ok s) :
    s = String.mk (if cs.length % 2 = 0 then cs else '0' :: cs) := by
  have h1 := padLeadingZeros_mono fuel cs none s h (fuel + 2) (by omega)
  rw [padLeadingZeros_none (fuel + 2) (by omega)] at h1
  exact (Except.ok.inj h1).symm

/-- The two bytes of a divisibility below 65536. -/
theorem divisibility_bytes (fuel : Nat) (hf : 4 ≤ fuel) (d : Nat) (hd : d < 65536) :
    ∃ s, padLeadingZeros fuel (toString16 d) (some POSTFIXBYTELENGTH) = .ok s ∧
      Buffer.fromHex s = [d / 256, d % 256] := by
  have h0 : hexVal '0' = some 0 := by decide
  by_cases h1 : d < 16
  · rw [toString16, toDigits16_one d h1]
    refine ⟨_, padLeadingZeros_two fuel hf _ (by simp) (by simp), ?_⟩
    simp [Buffer.fromHex, hexPairs, h0, hexVal_digitChar d h1, List.replicate]
    omega
  by_cases h2 : d < 256
  · rw [toString16, toDigits16_two d (by omega) h2]
    refine ⟨_, padLeadingZeros_two fuel hf _ (by simp) (by simp), ?_⟩
    simp [Buffer.fromHex, hexPairs, h0, hexVal_digitChar (d / 16) (by omega),
        hexVal_digitChar (d % 16) (by omega), List.replicate]
    omega
  by_cases h3 : d < 4096
  · rw [toString16, toDigits16_three d (by omega) h3]
    refine ⟨_, padLeadingZeros_two fuel hf _ (by simp) (by simp), ?_⟩
    simp [Buffer.fromHex, hexPairs, h0, hexVal_digitChar (d / 256) (by omega),
        hexVal_digitChar (d / 16 % 16) (by omega),
        hexVal_digitChar (d % 16) (by omega), List.replicate]
    omega
  · rw [toString16, toDigits16_four d (by omega) hd]
    refine ⟨_, padLeadingZeros_two fuel hf _ (by simp) (by simp), ?_⟩
    simp [Buffer.fromHex, hexPairs, h0, hexVal_digitChar (d / 4096) (by omega),
        hexVal_digitChar (d / 256 % 16) (by omega), hexVal_digitChar (d / 16 % 16) (by omega),
        hexVal_digitChar (d % 16) (by omega), List.replicate]
    omega

theorem truthy_some (s : String) : truthy (some s) = true ↔ s ≠ "" := by
  simp [truthy]

/-! ## The bytes handed to the encoder -/

theorem hashAndBase58CheckEncode_ok_iff (L : Lib) (fuel : Nat) (payload : Payload)
    (padding : Option Nat) (dv : Nat) (id : String) :
    hashAndBase58CheckEncode L fuel payload padding dv = .ok id ↔
      ∃ c, concatenation L fuel payload padding dv = .ok c ∧ id = L.bs58checkEncode c := by
  unfold hashAndBase58CheckEncode
  cases concatenation L fuel payload padding dv with
  | error e => simp
  | ok c => simp [eq_comm]

/-- The shape of `concatenation` when it returns. -/
theorem concatenation_ok (L : Lib) (fuel : Nat) (payload : Payload)
    (padding : Option Nat) (dv : Nat) (c : Buffer)
    (h : concatenation L fuel payload padding dv = .ok c) :
    ∃ p divHex, padding = some p ∧
      padLeadingZeros fuel (toString16 dv) (some POSTFIXBYTELENGTH) = .ok divHex ∧
      c = hexPairs (if (Nat.toDigits 16 p).length % 2 = 0 then Nat.toDigits 16 p
            else '0' :: Nat.toDigits 16 p)
          ++ L.ripemd160 (L.sha256 payload.bytes) ++ Buffer.fromHex divHex := by
  unfold concatenation at h
  split at h
  · simp at h
  · rename_i p
    simp only at h
    split at h
    · simp at h
    · rename_i padHex hpad
      split at h
      · simp at h
      · rename_i divHex hdiv
        refine ⟨p, divHex, rfl, hdiv, ?_⟩
        have := padLeadingZeros_none_of_ok fuel _ _ hpad
        subst this
        simp only [Except.ok.injEq] at h
        rw [← h]; rfl

/-- With four levels of stack, a padding and a divisibility below 65536, the
concatenation is returned. -/
theorem concatenation_eq (L : Lib) (fuel : Nat) (hf : 4 ≤ fuel) (payload : Payload)
    (p dv : Nat) (hdv : dv < 65536) :
    concatenation L fuel payload (some p) dv =
      .ok (hexPairs (if (Nat.toDigits 16 p).length % 2 = 0 then Nat.toDigits 16 p
            else '0' :: Nat.toDigits 16 p)
          ++ L.ripemd160 (L.sha256 payload.bytes) ++ [dv / 256, dv % 256]) := by
  obtain ⟨s, hs, hb⟩ := divisibility_bytes fuel hf dv hdv
  unfold concatenation
  simp only [toString16] at hs ⊢
  rw [padLeadingZeros_none fuel (by omega), hs]
  simp only [hb]
  rfl

/-- With four levels of stack, a padding and a divisibility below 65536,
`hashAndBase58CheckEncode` returns an identifier. -/
theorem hashAndBase58CheckEncode_returns (L : Lib) (fuel : Nat) (hf : 4 ≤ fuel)
    (payload : Payload) (p dv : Nat) (hdv : dv < 65536) :
    ∃ id, hashAndBase58CheckEncode L fuel payload (some p) dv = .ok id := by
  unfold hashAndBase58CheckEncode
  rw [concatenation_eq L fuel hf payload p dv hdv]
  exact ⟨_, rfl⟩

/-- Whether `hashAndBase58CheckEncode` throws, and what, does not depend on the
payload. -/
theorem hashAndBase58CheckEncode_error_payload (L : Lib) (fuel : Nat) (p₁ p₂ : Payload)
    (padding : Option Nat) (dv : Nat) (e : Err)
    (h : hashAndBase58CheckEncode L fuel p₁ padding dv = .error e) :
    hashAndBase58CheckEncode L fuel p₂ padding dv = .error e := by
  unfold hashAndBase58CheckEncode concatenation at h ⊢
  cases padding with
  | none => simpa using h
  | some p =>
    simp only at h ⊢
    cases h1 : padLeadingZeros fuel (toString16 p) none with
    | error e1 => rw [h1] at h; simpa using h
    | ok s1 =>
      rw [h1] at h
      simp only at h ⊢
      cases h2 : padLeadingZeros fuel (toString16 dv) (some POSTFIXBYTELENGTH) with
      | error e2 => rw [h2] at h; simpa using h
      | ok s2 => rw [h2] at h; simp at h

/-! ## Every identifier comes out of `hashAndBase58CheckEncode` -/

theorem createIdFromPubKeyHashInput_ok (L : Lib) (fuel : Nat) (ss ss' : ScriptSig)
    (padding : Option Nat) (dv : Nat) (id : String)
    (h : createIdFromPubKeyHashInput L fuel ss padding dv = (.ok id, ss')) :
    ∃ payload, hashAndBase58CheckEncode L fuel payload padding dv = .ok id := by
  unfold createIdFromPubKeyHashInput at h
  simp only at h
  split at h
  · simp at h
  · split at h
    · simp at h
    · split at h
      · simp at h
      · split at h
        · simp at h
        · simp only [Prod.mk.injEq] at h
          exact ⟨_, h.1⟩

theorem createIdFromScriptHashInput_ok (L : Lib) (fuel : Nat) (ss : ScriptSig)
    (padding : Option Nat) (dv : Nat) (id : String)
    (h : createIdFromScriptHashInput L fuel ss padding dv = .ok id) :
    ∃ payload, hashAndBase58CheckEncode L fuel payload padding dv = .ok id := by
  unfold createIdFromScriptHashInput at h
  simp only at h
  split at h
  · simp at h
  · split at h
    · simp at h
    · split at h
      · simp at h
      · split at h
        · simp at h
        · split at h
          · simp at h
          · exact ⟨_, h⟩

theorem tryBlock_ok (L : Lib) (fuel : Nat) (address : String)
    (padding : Option Nat) (dv : Nat) (id : String)
    (h : createIdFromAddress.tryBlock L fuel address padding dv = .ok (some id)) :
    ∃ payload, hashAndBase58CheckEncode L fuel payload padding dv = .ok id := by
  unfold createIdFromAddress.tryBlock at h
  simp only at h
  split at h
  · simp at h
  · split at h
    · simp at h
    · split at h
      · simp at h
      · split at h
        · split at h
          · simp at h
          · split at h
            · simp at h
            · rename_i heq
              simp at h; subst h; exact ⟨_, heq⟩
        · split at h
          · split at h
            · simp at h
            · split at h
              · simp at h
              · rename_i heq
                simp at h; subst h; exact ⟨_, heq⟩
          · simp at h

theorem catchBlock_ok (L : Lib) (fuel : Nat) (address : String)
    (padding : Option Nat) (dv : Nat) (id : String)
    (h : createIdFromAddress.catchBlock L fuel address padding dv = .ok (some id)) :
    ∃ payload, hashAndBase58CheckEncode L fuel payload padding dv = .ok id := by
  unfold createIdFromAddress.catchBlock at h
  split at h
  · simp at h
  · split at h
    · simp at h
    · split at h
      · split at h
        · simp at h
        · split at h
          · simp at h
          · rename_i heq
            simp at h; subst h; exact ⟨_, heq⟩
      · split at h <;> simp at h

theorem createIdFromAddress_ok (L : Lib) (fuel : Nat) (address : String)
    (padding : Option Nat) (dv : Nat) (id : String)
    (h : createIdFromAddress L fuel address padding dv = .ok (some id)) :
    ∃ payload, hashAndBase58CheckEncode L fuel payload padding dv = .ok id := by
  unfold createIdFromAddress at h
  split at h
  · rename_i r heq
    simp at h; subst h
    exact tryBlock_ok L fuel address padding dv id heq
  · exact catchBlock_ok L fuel address padding dv id h

theorem scriptSigBranch_ok (L : Lib) (fuel : Nat) (ss ss' : ScriptSig)
    (padding : Option Nat) (dv : Nat) (id : String)
    (h : module.exports.scriptSigBranch L fuel ss padding dv = (.ok (some id), ss')) :
    ∃ payload, hashAndBase58CheckEncode L fuel payload padding dv = .ok id := by
  unfold module.exports.scriptSigBranch at h
  simp only at h
  split at h
  · simp at h
  · split at h
    · simp at h
    · split at h
      · split at h
        · simp at h
        · rename_i heq
          simp only [Prod.mk.injEq, Except.ok.injEq, Option.some.injEq] at h
          obtain ⟨h1, -⟩ := h
          subst h1
          exact createIdFromPubKeyHashInput_ok L fuel _ _ padding dv _ heq
      · split at h
        · split at h
          · simp at h
          · rename_i heq
            simp only [Prod.mk.injEq, Except.ok.injEq, Option.some.injEq] at h
            obtain ⟨h1, -⟩ := h
            subst h1
            exact createIdFromScriptHashInput_ok L fuel _ padding dv _ heq
        · simp at h

theorem unlocked_ok (L : Lib) (fuel : Nat) (inp inp' : Input) (policy : String) (dv : Nat)
    (id : String) (h : module.exports.unlocked L fuel inp policy dv = (.ok (some id), inp')) :
    ∃ payload, hashAndBase58CheckEncode L fuel payload (UNLOCKEPADDING policy) dv = .ok id := by
  unfold module.exports.unlocked at h
  simp only at h
  split at h
  · split at h
    · simp at h
    · rename_i heq
      simp only [Prod.mk.injEq, Except.ok.injEq, Option.some.injEq] at h
      obtain ⟨h1, -⟩ := h
      subst h1
      exact ⟨_, heq⟩
  · split at h
    · simp at h
    · rename_i id' inp'' heq
      simp only [Prod.mk.injEq, Except.ok.injEq, Option.some.injEq] at h
      obtain ⟨h1, -⟩ := h
      subst h1
      split at heq
      · simp at heq
      · split at heq
        · cases hb : module.exports.scriptSigBranch L fuel _ (UNLOCKEPADDING policy) dv with
          | mk r s =>
            rw [hb] at heq
            simp only [Prod.mk.injEq] at heq
            obtain ⟨h1, -⟩ := heq
            subst h1
            exact scriptSigBranch_ok L fuel _ _ _ dv _ hb
        · simp at heq
    · split at h
      · simp at h
      · split at h
        · simp only [Prod.mk.injEq] at h
          exact createIdFromAddress_ok L fuel _ _ dv id h.1
        · simp at h

theorem exports_ok (L : Lib) (fuel : Nat) (tx : Transaction) (d : Metadata)
    (ds : List Metadata) (b : Bool) (policy : String)
    (hd : tx.dadata = some (d :: ds)) (hl : d.lockStatus = some b)
    (hp : d.aggregationPolicy = some policy) (hne : policy ≠ "") (id : String)
    (h : (module.exports L fuel tx).1 = .ok (some id)) :
    ∃ payload, hashAndBase58CheckEncode L fuel payload
      (if b then LOCKEPADDING policy else UNLOCKEPADDING policy) (d.divisibility.getD 0) = .ok id := by
  have htr : truthy (some policy) = true := (truthy_some policy).2 hne
  unfold module.exports at h
  simp only [hd, hl, hp, htr, if_true, Option.getD_some] at h
  split at h
  · simp at h
  · split at h
    · simp at h
    · rename_i inp rest hv
      cases b with
      | true =>
        simp only [if_true] at h ⊢
        split at h
        · simp at h
        · rename_i heq
          simp only [Except.ok.injEq, Option.some.injEq] at h
          subst h
          exact ⟨_, heq⟩
      | false =>
        simp only [Bool.false_eq_true, if_false] at h ⊢
        cases hu : module.exports.unlocked L fuel inp policy (d.divisibility.getD 0) with
        | mk r i' =>
          rw [hu] at h
          simp only at h
          subst h
          exact unlocked_ok L fuel _ _ _ _ _ hu

/-! ## Scripts and addresses -/

theorem pubKeyHashScript_toBuffer (h : Buffer) (hlen : h.length = 20) :
    ∃ s, pubKeyHashScript h = .ok s ∧
      s.toBuffer = 0x76 :: 0xa9 :: 0x14 :: h ++ [0x88, 0xac] := by
  refine ⟨⟨[⟨none, 0, OP_DUP⟩, ⟨none, 0, OP_HASH160⟩, ⟨some h, 20, 20⟩,
    ⟨none, 0, OP_EQUALVERIFY⟩, ⟨none, 0, OP_CHECKSIG⟩]⟩, ?_, ?_⟩
  · simp [pubKeyHashScript, Script.addOpcode, Script.addBuffer, hlen, OP_PUSHDATA1]
  · simp [Script.toBuffer, Chunk.toBuffer, OP_DUP, OP_HASH160, OP_EQUALVERIFY, OP_CHECKSIG,
      OP_PUSHDATA1]

theorem scriptHashScript_toBuffer (h : Buffer) (hlen : h.length = 20) :
    ∃ s, scriptHashScript h = .ok s ∧ s.toBuffer = 0xa9 :: 0x14 :: h ++ [0x87] := by
  refine ⟨⟨[⟨none, 0, OP_HASH160⟩, ⟨some h, 20, 20⟩, ⟨none, 0, OP_EQUAL⟩]⟩, ?_, ?_⟩
  · simp [scriptHashScript, Script.addOpcode, Script.addBuffer, hlen, OP_PUSHDATA1]
  · simp [Script.toBuffer, Chunk.toBuffer, OP_HASH160, OP_EQUAL, OP_PUSHDATA1]

theorem tryBlock_recognized (L : Lib) (fuel : Nat) (address : String)
    (padding : Option Nat) (dv : Nat) (v : Nat) (h : Buffer)
    (hdec : L.bs58checkDecode address = .ok (v :: h)) (hlen : h.length = 20)
    (hv : v ∈ NETWORKVERSIONS) :
    createIdFromAddress.tryBlock L fuel address padding dv =
      (hashAndBase58CheckEncode L fuel (.buf (lockingScript v h)) padding dv).map some := by
  obtain ⟨s1, hs1, hb1⟩ := pubKeyHashScript_toBuffer h hlen
  obtain ⟨s2, hs2, hb2⟩ := scriptHashScript_toBuffer h hlen
  have hslice : Buffer.slice (v :: h) 1 21 = h := by
    simp [Buffer.slice, List.take_of_length_le, hlen]
  simp only [NETWORKVERSIONS, DGB_P2PKH, BTC_TESTNET_P2PKH, DGB_P2SH, DGB_P2SH_LEGACY,
    BTC_TESTNET_P2SH, List.mem_cons, List.mem_singleton, List.not_mem_nil, or_false] at hv
  have htake : List.take 20 h = h := List.take_of_length_le (by omega)
  rcases hv with rfl | rfl | rfl | rfl | rfl <;>
    simp [createIdFromAddress.tryBlock, hdec, Buffer.slice, NETWORKVERSIONS, DGB_P2PKH,
      BTC_TESTNET_P2PKH, DGB_P2SH, DGB_P2SH_LEGACY, BTC_TESTNET_P2SH, lockingScript, htake,
      hs1, hs2, hb1, hb2] <;>
    (cases hashAndBase58CheckEncode L fuel _ padding dv <;> rfl)

/-- The identifiers that `createIdFromAddress` can return for a Base58Check
address of a recognized version and 20-byte hash. -/
theorem createIdFromAddress_recognized (L : Lib) (fuel : Nat) (address : String)
    (padding : Option Nat) (dv : Nat) (v : Nat) (h : Buffer)
    (hdec : L.bs58checkDecode address = .ok (v :: h)) (hlen : h.length = 20)
    (hv : v ∈ NETWORKVERSIONS) (id : String) :
    createIdFromAddress L fuel address padding dv = .ok (some id) ↔
      hashAndBase58CheckEncode L fuel (.buf (lockingScript v h)) padding dv = .ok id := by
  have htry := tryBlock_recognized L fuel address padding dv v h hdec hlen hv
  unfold createIdFromAddress
  rw [htry]
  cases hh : hashAndBase58CheckEncode L fuel (.buf (lockingScript v h)) padding dv with
  | ok id' => simp [Except.map]
  | error e =>
    simp only [Except.map]
    constructor
    · intro hc
      obtain ⟨payload, hp⟩ := catchBlock_ok L fuel address padding dv id hc
      have := hashAndBase58CheckEncode_error_payload L fuel _ payload padding dv e hh
      rw [this] at hp
      cases hp
    · intro hc
      cases hc

/-! ## The unlocked derivation, branch by branch -/

/-- The exported function on an unlocked issuance, whatever the metadata says
about the policy. -/
theorem exports_unlocked_default (L : Lib) (fuel : Nat) (tx : Transaction) (d : Metadata)
    (ds : List Metadata) (inp : Input) (rest : List Input)
    (hd : tx.dadata = some (d :: ds)) (ht : d.type = "issuance")
    (hl : d.lockStatus = some false) (hv : tx.vin = inp :: rest) :
    (module.exports L fuel tx).1 =
      (module.exports.unlocked L fuel inp
        (if truthy d.aggregationPolicy then d.aggregationPolicy.getD "" else "aggregatable")
        (d.divisibility.getD 0)).1 := by
  simp only [module.exports, hd, hv, ht, hl]
  simp only [ne_eq, not_true_eq_false, if_false, Bool.false_eq_true]

/-- The exported function on an unlocked issuance is `module.exports.unlocked`
on the first input. -/
theorem exports_unlocked (L : Lib) (fuel : Nat) (tx : Transaction) (d : Metadata)
    (ds : List Metadata) (inp : Input) (rest : List Input) (policy : String)
    (hd : tx.dadata = some (d :: ds)) (ht : d.type = "issuance")
    (hl : d.lockStatus = some false) (hp : d.aggregationPolicy = some policy)
    (hne : policy ≠ "") (hv : tx.vin = inp :: rest) :
    (module.exports L fuel tx).1 =
      (module.exports.unlocked L fuel inp policy (d.divisibility.getD 0)).1 := by
  have htr : truthy (some policy) = true := (truthy_some policy).2 hne
  simp only [module.exports, hd, hv, ht, hl, hp, htr]
  simp only [ne_eq, not_true_eq_false, if_false, if_true, Option.getD_some,
    Bool.false_eq_true]

/-- The unlocked derivation from a previous-output script hex. -/
theorem unlocked_previousOutput (L : Lib) (fuel : Nat) (inp : Input) (policy : String)
    (dv : Nat) (hex : String) (hpo : inp.previousOutput = some ⟨some hex⟩) (hhex : hex ≠ "") :
    (module.exports.unlocked L fuel inp policy dv).1 =
      (hashAndBase58CheckEncode L fuel (.buf (Buffer.fromHex hex))
        (UNLOCKEPADDING policy) dv).map some := by
  have hth : truthy (some hex) = true := (truthy_some hex).2 hhex
  simp only [module.exports.unlocked, hpo, hth, createIdFromPreviousOutputScriptPubKey, if_true]
  cases hashAndBase58CheckEncode L fuel (.buf (Buffer.fromHex hex))
    (UNLOCKEPADDING policy) dv <;> rfl

/-- Without a previous-output script hex, a populated `scriptSig` is tried
first; only when its branch ends without a `return` is the address read. -/
theorem unlocked_scriptSig (L : Lib) (fuel : Nat) (inp : Input) (policy : String) (dv : Nat)
    (ss : ScriptSig)
    (hpo : ∀ po, inp.previousOutput = some po → truthy po.hex = false)
    (hss : inp.scriptSig = some ss) (htr : (truthy ss.hex || truthy ss.asm) = true) :
    (module.exports.unlocked L fuel inp policy dv).1 =
      match (module.exports.scriptSigBranch L fuel ss (UNLOCKEPADDING policy) dv).1 with
      | .ok none =>
        if truthy inp.address then
          createIdFromAddress L fuel (inp.address.getD "") (UNLOCKEPADDING policy) dv
        else .ok none
      | r => r := by
  have hprev : (match inp.previousOutput with
      | none => (none : Option String)
      | some po => if truthy po.hex then po.hex else none) = none := by
    cases hq : inp.previousOutput with
    | none => rfl
    | some po => simp [hpo po hq]
  unfold module.exports.unlocked
  simp only [hprev, hss, htr, if_true]
  cases hb : module.exports.scriptSigBranch L fuel ss (UNLOCKEPADDING policy) dv with
  | mk r s =>
    cases r with
    | error e => rfl
    | ok v =>
      cases v with
      | some id => rfl
      | none =>
        simp only
        cases ha : inp.address with
        | none => simp [truthy]
        | some a =>
          by_cases hta : truthy (some a) = true
          · simp [hta]
          · simp [hta]

/-- Without a previous-output script hex and without a populated `scriptSig`,
the address decides. -/
theorem unlocked_address (L : Lib) (fuel : Nat) (inp : Input) (policy : String) (dv : Nat)
    (hpo : ∀ po, inp.previousOutput = some po → truthy po.hex = false)
    (hss : ∀ ss, inp.scriptSig = some ss → (truthy ss.hex || truthy ss.asm) = false) :
    module.exports.unlocked L fuel inp policy dv =
      (if truthy inp.address then
          createIdFromAddress L fuel (inp.address.getD "") (UNLOCKEPADDING policy) dv
        else .ok none, inp) := by
  have hprev : (match inp.previousOutput with
      | none => (none : Option String)
      | some po => if truthy po.hex then po.hex else none) = none := by
    cases hq : inp.previousOutput with
    | none => rfl
    | some po => simp [hpo po hq]
  unfold module.exports.unlocked
  simp only [hprev]
  cases hs : inp.scriptSig with
  | none =>
    simp only
    cases ha : inp.address with
    | none => simp [truthy]
    | some a =>
      by_cases hta : truthy (some a) = true
      · simp [hta]
      · simp [hta]
  | some ss =>
    have := hss ss hs
    simp only [this]
    cases ha : inp.address with
    | none => simp [truthy, ha]
    | some a =>
      by_cases hta : truthy (some a) = true
      · simp [hta, ha]
      · simp [hta, ha]

/-- A `scriptSig` whose script is classified returns or throws. -/
theorem scriptSigBranch_classified (L : Lib) (fuel : Nat) (ss : ScriptSig) (h : String)
    (script : Script) (padding : Option Nat) (dv : Nat)
    (hh : ss.hex = some h) (hhne : h ≠ "")
    (hparse : L.scriptFromBuffer (Buffer.fromHex h) = .ok script)
    (hclass : L.isPublicKeyHashIn script = true ∨ L.isScriptHashIn script = true) :
    (module.exports.scriptSigBranch L fuel ss padding dv).1 ≠ .ok none := by
  have hths : truthy (some h) = true := (truthy_some h).2 hhne
  unfold module.exports.scriptSigBranch
  simp only [hh, hths, if_true, Option.getD_some, hparse]
  by_cases hk : L.isPublicKeyHashIn script = true
  · simp only [hk, if_true]
    cases hc : createIdFromPubKeyHashInput L fuel { hex := some h, asm := ss.asm } padding dv with
    | mk r s => cases r <;> simp
  · have hs : L.isScriptHashIn script = true := by
      rcases hclass with h1 | h1
      · exact absurd h1 hk
      · exact h1
    simp only [hk, hs, if_true]
    cases hc : createIdFromScriptHashInput L fuel { hex := some h, asm := ss.asm } padding dv with
    | error e => simp
    | ok v => simp

/-- A `scriptSig` whose script is parsed and classified neither way ends its
branch without a `return`. -/
theorem scriptSigBranch_unclassified (L : Lib) (fuel : Nat) (ss : ScriptSig) (hex : String)
    (script : Script) (padding : Option Nat) (dv : Nat)
    (hhex : (ss.hex = some hex ∧ hex ≠ "") ∨
      (truthy ss.hex = false ∧ ∃ s, L.scriptFromASM ss.asm = .ok s ∧ hex = s.toBuffer.toHex))
    (hparse : L.scriptFromBuffer (Buffer.fromHex hex) = .ok script)
    (hpk : L.isPublicKeyHashIn script = false) (hsh : L.isScriptHashIn script = false) :
    (module.exports.scriptSigBranch L fuel ss padding dv).1 = .ok none := by
  unfold module.exports.scriptSigBranch
  rcases hhex with ⟨h1, h2⟩ | ⟨h1, s, h2, h3⟩
  · have hths : truthy (some hex) = true := (truthy_some hex).2 h2
    simp [h1, hths, hparse, hpk, hsh]
  · subst h3
    simp [h1, h2, hparse, hpk, hsh]

/-! ## The locked derivation -/

/-- C1: a locked issuance with one of the three policies returns
`hashAndBase58CheckEncode` of the text `txid:vout` of the first input, the locked
padding of the policy and the divisibility; the result is the same whatever the
`previousOutput`, `scriptSig` and `address` of the first input are; and with four
levels of stack and a divisibility below 65536 it is an identifier. -/
theorem C1_locked_hashes_txid_index (L : Lib) (fuel : Nat) (tx : Transaction)
    (d : Metadata) (ds : List Metadata) (inp : Input) (rest : List Input) (policy : String)
    (hd : tx.dadata = some (d :: ds)) (ht : d.type = "issuance")
    (hl : d.lockStatus = some true) (hp : d.aggregationPolicy = some policy)
    (hpol : policy = "aggregatable" ∨ policy = "hybrid" ∨ policy = "dispersed")
    (hv : tx.vin = inp :: rest) :
    (module.exports L fuel tx).1 =
        (hashAndBase58CheckEncode L fuel (.str (inp.txid ++ ":" ++ toString inp.vout))
          (LOCKEPADDING policy) (d.divisibility.getD 0)).map some
      ∧ (∀ (po : Option PreviousOutput) (ss : Option ScriptSig) (ad : Option String),
          (module.exports L fuel
            { tx with vin := { inp with previousOutput := po, scriptSig := ss, address := ad } :: rest }).1
          = (module.exports L fuel tx).1)
      ∧ (4 ≤ fuel → d.divisibility.getD 0 < 65536 →
          ∃ id : String, (module.exports L fuel tx).1 = .ok (some id)) := by
  have htr : truthy (some policy) = true := by
    rcases hpol with h | h | h <;> subst h <;> decide
  have key : ∀ (i : Input) (t : Transaction), t.dadata = some (d :: ds) → t.vin = i :: rest →
      (module.exports L fuel t).1 =
        (hashAndBase58CheckEncode L fuel (.str (i.txid ++ ":" ++ toString i.vout))
          (LOCKEPADDING policy) (d.divisibility.getD 0)).map some := by
    intro i t h1 h2
    simp only [module.exports, h1, h2, ht, hl, hp, htr, createIdFromTxidIndex]
    simp only [ne_eq, not_true_eq_false, if_false, if_true, Option.getD_some]
    cases hashAndBase58CheckEncode L fuel (.str (i.txid ++ ":" ++ toString i.vout))
      (LOCKEPADDING policy) (d.divisibility.getD 0) <;> rfl
  refine ⟨key inp tx hd hv, ?_, ?_⟩
  · intro po ss ad
    rw [key inp tx hd hv]
    exact key { inp with previousOutput := po, scriptSig := ss, address := ad } _ hd rfl
  · intro hf hdv
    obtain ⟨p, hp'⟩ : ∃ p, LOCKEPADDING policy = some p := by
      rcases hpol with h | h | h <;> subst h <;> exact ⟨_, rfl⟩
    obtain ⟨id, hid⟩ := hashAndBase58CheckEncode_returns L fuel hf
      (.str (inp.txid ++ ":" ++ toString inp.vout)) p _ hdv
    refine ⟨id, ?_⟩
    rw [key inp tx hd hv, hp', hid]
    rfl

/-- C1 at `lockedTx`: the identifier is that of the text `aa…a:0`, also when the first
input carries a previous-output script, an unlocking script and an address. -/
theorem C1_locked_hashes_txid_index_witness :
    (module.exports sampleLib 4 lockedTx).1 =
        (hashAndBase58CheckEncode sampleLib 4 (.str (sampleTxid ++ ":" ++ toString 0))
          (LOCKEPADDING "aggregatable") 0).map some
      ∧ (module.exports sampleLib 4
          { lockedTx with vin := [⟨sampleTxid, 0, some ⟨some sampleScriptHex⟩,
              some ⟨some "51", none⟩, some sampleAddress⟩] }).1
        = (module.exports sampleLib 4 lockedTx).1
      ∧ ∃ id : String, (module.exports sampleLib 4 lockedTx).1 = .ok (some id) :=
  have h := C1_locked_hashes_txid_index sampleLib 4 lockedTx
    ⟨"issuance", some true, some "aggregatable", some 0⟩ [] ⟨sampleTxid, 0, none, none, none⟩ []
    "aggregatable" rfl rfl rfl rfl (Or.inl rfl) rfl
  ⟨h.1, h.2.1 (some ⟨some sampleScriptHex⟩) (some ⟨some "51", none⟩) (some sampleAddress),
    h.2.2 (by decide) (by decide)⟩

/-! ## Priority of the previous-output script -/

/-- C2: an unlocked issuance whose first input carries a previous-output script
hex returns `hashAndBase58CheckEncode` of the bytes of that hex, the unlocked
padding of the policy and the divisibility, whatever `scriptSig` and `address`
are (an identifier, with a policy of the table, four levels of stack and a
divisibility below 65536); and without a previous-output script, an unlocking
script that is classified decides the result whatever the address is. -/
theorem C2_previous_output_script_first (L : Lib) (fuel : Nat) (tx : Transaction)
    (d : Metadata) (ds : List Metadata) (inp : Input) (rest : List Input)
    (policy hex : String)
    (hd : tx.dadata = some (d :: ds)) (ht : d.type = "issuance")
    (hl : d.lockStatus = some false) (hp : d.aggregationPolicy = some policy)
    (hne : policy ≠ "") (hv : tx.vin = inp :: rest)
    (hpo : inp.previousOutput = some ⟨some hex⟩) (hhex : hex ≠ "") :
    (module.exports L fuel tx).1 =
        (hashAndBase58CheckEncode L fuel (.buf (Buffer.fromHex hex))
          (UNLOCKEPADDING policy) (d.divisibility.getD 0)).map some
      ∧ (∀ (ss : Option ScriptSig) (ad : Option String),
          (module.exports L fuel
            { tx with vin := { inp with scriptSig := ss, address := ad } :: rest }).1
          = (module.exports L fuel tx).1)
      ∧ (∀ (ss : ScriptSig) (h : String) (script : Script),
          ss.hex = some h → h ≠ "" → L.scriptFromBuffer (Buffer.fromHex h) = .ok script →
          (L.isPublicKeyHashIn script = true ∨ L.isScriptHashIn script = true) →
          ∀ ad : Option String,
            (module.exports L fuel
              { tx with vin :=
                  { inp with previousOutput := none, scriptSig := some ss, address := ad }
                    :: rest }).1
            = (module.exports L fuel
              { tx with vin :=
                  { inp with previousOutput := none, scriptSig := some ss, address := none }
                    :: rest }).1)
      ∧ (∀ p : Nat, UNLOCKEPADDING policy = some p → 4 ≤ fuel →
          d.divisibility.getD 0 < 65536 →
          ∃ id : String, (module.exports L fuel tx).1 = .ok (some id)) := by
  have htr : truthy (some policy) = true := (truthy_some policy).2 hne
  have hth : truthy (some hex) = true := (truthy_some hex).2 hhex
  have key : ∀ (i : Input) (t : Transaction), t.dadata = some (d :: ds) → t.vin = i :: rest →
      i.previousOutput = some ⟨some hex⟩ →
      (module.exports L fuel t).1 =
        (hashAndBase58CheckEncode L fuel (.buf (Buffer.fromHex hex))
          (UNLOCKEPADDING policy) (d.divisibility.getD 0)).map some := by
    intro i t h1 h2 h3
    simp only [module.exports, module.exports.unlocked, h1, h2, h3, ht, hl, hp, htr, hth,
      createIdFromPreviousOutputScriptPubKey]
    simp only [ne_eq, not_true_eq_false, if_false, if_true, Option.getD_some,
      Bool.false_eq_true]
    cases hashAndBase58CheckEncode L fuel (.buf (Buffer.fromHex hex))
      (UNLOCKEPADDING policy) (d.divisibility.getD 0) <;> rfl
  refine ⟨key inp tx hd hv hpo, ?_, ?_, ?_⟩
  rotate_left 2
  · intro p hp' hf hdv
    obtain ⟨id, hid⟩ := hashAndBase58CheckEncode_returns L fuel hf
      (.buf (Buffer.fromHex hex)) p _ hdv
    refine ⟨id, ?_⟩
    rw [key inp tx hd hv hpo, hp', hid]
    rfl
  · intro ss ad
    rw [key inp tx hd hv hpo]
    exact key { inp with scriptSig := ss, address := ad } _ hd rfl hpo
  · intro ss h script hh hhne hparse hclass ad
    have hths : truthy (some h) = true := (truthy_some h).2 hhne
    have hne' := scriptSigBranch_classified L fuel ss h script (UNLOCKEPADDING policy)
      (d.divisibility.getD 0) hh hhne hparse hclass
    have hside : ∀ a : Option String,
        (module.exports L fuel
          { tx with vin :=
              { inp with previousOutput := none, scriptSig := some ss, address := a } :: rest }).1
        = (module.exports.scriptSigBranch L fuel ss (UNLOCKEPADDING policy)
            (d.divisibility.getD 0)).1 := by
      intro a
      rw [exports_unlocked L fuel
        { tx with vin :=
            { inp with previousOutput := none, scriptSig := some ss, address := a } :: rest }
        d ds { inp with previousOutput := none, scriptSig := some ss, address := a } rest policy
        hd ht hl hp hne rfl]
      rw [unlocked_scriptSig L fuel _ policy _ ss (by intro po hq; cases hq) rfl
        (by simp [hh, hths])]
      split
      · rename_i heq
        exact absurd heq hne'
      · rfl
    rw [hside ad, hside none]

/-- C2 at an input that carries a previous-output script, an unclassified unlocking
script and a foreign address: the previous-output script decides; and a
pay-to-pubkey-hash unlocking script decides before the address. -/
theorem C2_previous_output_script_first_witness :
    (module.exports sampleLib 4
        (unlockedTx (some ⟨some sampleScriptHex⟩) (some ⟨some "51", none⟩) (some foreignAddress))).1
      = (hashAndBase58CheckEncode sampleLib 4 (.buf (Buffer.fromHex sampleScriptHex))
          (UNLOCKEPADDING "aggregatable") 0).map some
    ∧ (module.exports sampleLib 4
        (unlockedTx none (some ⟨some sampleScriptSigHex, none⟩) (some foreignAddress))).1
      = (module.exports sampleLib 4
        (unlockedTx none (some ⟨some sampleScriptSigHex, none⟩) none)).1
    ∧ (module.exports sampleLib 4
        (unlockedTx (some ⟨some sampleScriptHex⟩) (some ⟨some "51", none⟩) (some foreignAddress))).1
      = .ok (some sampleUnlockedId) :=
  have h := C2_previous_output_script_first sampleLib 4
    (unlockedTx (some ⟨some sampleScriptHex⟩) (some ⟨some "51", none⟩) (some foreignAddress))
    unlockedMetadata []
    ⟨sampleTxid, 0, some ⟨some sampleScriptHex⟩, some ⟨some "51", none⟩, some foreignAddress⟩ []
    "aggregatable" sampleScriptHex rfl rfl rfl rfl (by decide) rfl rfl (by decide)
  ⟨h.1, h.2.2.1 ⟨some sampleScriptSigHex, none⟩ sampleScriptSigHex
    ⟨sampleParse (Buffer.fromHex sampleScriptSigHex).length (Buffer.fromHex sampleScriptSigHex)⟩
    rfl (by decide) rfl (Or.inl (by decide)) (some foreignAddress), by decide⟩

/-! ## Padding and divisibility bytes -/

/-- C3: when an identifier is produced for one of the six combinations of lock
status and policy, the bytes handed to the Base58Check encoder are the two
big-endian bytes of the padding constant of the combination, then the 20 bytes
of the hash160 of the payload, then the divisibility bytes. -/
theorem C3_padding_prefix (L : Lib) (fuel : Nat) (tx : Transaction) (d : Metadata)
    (ds : List Metadata) (b : Bool) (policy id : String)
    (hd : tx.dadata = some (d :: ds)) (hl : d.lockStatus = some b)
    (hp : d.aggregationPolicy = some policy)
    (hpol : policy = "aggregatable" ∨ policy = "hybrid" ∨ policy = "dispersed")
    (h : (module.exports L fuel tx).1 = .ok (some id)) :
    ∃ (p : Nat) (payload : Payload) (divisibilityBytes : Buffer),
      (if b then LOCKEPADDING policy else UNLOCKEPADDING policy) = some p ∧
      p = (if b then
            (if policy = "aggregatable" then 0x20ce else if policy = "hybrid" then 0x2102
              else 0x20e4)
          else
            (if policy = "aggregatable" then 0x2e37 else if policy = "hybrid" then 0x2e6b
              else 0x2e4e)) ∧
      concatenation L fuel payload (some p) (d.divisibility.getD 0)
        = .ok ([p / 256, p % 256] ++ L.ripemd160 (L.sha256 payload.bytes) ++ divisibilityBytes) ∧
      id = L.bs58checkEncode
        ([p / 256, p % 256] ++ L.ripemd160 (L.sha256 payload.bytes) ++ divisibilityBytes) ∧
      (L.ripemd160 (L.sha256 payload.bytes)).length = 20 := by
  have hne : policy ≠ "" := by
    rcases hpol with h | h | h <;> subst h <;> decide
  obtain ⟨payload, hpay⟩ := exports_ok L fuel tx d ds b policy hd hl hp hne id h
  obtain ⟨c, hc, hid⟩ := (hashAndBase58CheckEncode_ok_iff _ _ _ _ _ _).1 hpay
  obtain ⟨p, divHex, hpad, -, hshape⟩ := concatenation_ok _ _ _ _ _ _ hc
  refine ⟨p, payload, Buffer.fromHex divHex, hpad, ?_, ?_, ?_, L.ripemd160_length _⟩
  · rcases hpol with h | h | h <;> subst h <;> cases b <;>
      simp [LOCKEPADDING, UNLOCKEPADDING] at hpad ⊢ <;> omega
  · rw [← hpad, hc, hshape]
    rcases hpol with h | h | h <;> subst h <;> cases b <;>
      simp [LOCKEPADDING, UNLOCKEPADDING] at hpad <;> subst hpad <;> rfl
  · rw [hid, hshape]
    rcases hpol with h | h | h <;> subst h <;> cases b <;>
      simp [LOCKEPADDING, UNLOCKEPADDING] at hpad <;> subst hpad <;> rfl

/-- C3 at `lockedTx`: the bytes encoded start with `20 ce`. -/
theorem C3_padding_prefix_witness :
    (module.exports sampleLib 4 lockedTx).1 = .ok (some "La8FWKSKkwrSUpUcfoRSZU4Rm7yfUHBEe4qmzg") ∧
    ∃ (p : Nat) (payload : Payload) (divisibilityBytes : Buffer),
      (if true then LOCKEPADDING "aggregatable" else UNLOCKEPADDING "aggregatable") = some p ∧
      p = (if true then
            (if "aggregatable" = "aggregatable" then 0x20ce
              else if "aggregatable" = "hybrid" then 0x2102 else 0x20e4)
          else
            (if "aggregatable" = "aggregatable" then 0x2e37
              else if "aggregatable" = "hybrid" then 0x2e6b else 0x2e4e)) ∧
      concatenation sampleLib 4 payload (some p) 0
        = .ok ([p / 256, p % 256] ++ sampleLib.ripemd160 (sampleLib.sha256 payload.bytes)
            ++ divisibilityBytes) ∧
      "La8FWKSKkwrSUpUcfoRSZU4Rm7yfUHBEe4qmzg" = sampleLib.bs58checkEncode
        ([p / 256, p % 256] ++ sampleLib.ripemd160 (sampleLib.sha256 payload.bytes)
            ++ divisibilityBytes) ∧
      (sampleLib.ripemd160 (sampleLib.sha256 payload.bytes)).length = 20 :=
  ⟨by decide,
    C3_padding_prefix sampleLib 4 lockedTx
      ⟨"issuance", some true, some "aggregatable", some 0⟩ [] true "aggregatable" _
      rfl rfl rfl (Or.inl rfl) (by decide)⟩

/-- C4: for every payload, padding and divisibility `d` in [0, 255], the bytes
handed to the Base58Check encoder are the padding bytes, the hash160 and then
exactly the two bytes `0x00, d`. -/
theorem C4_divisibility_two_bytes (L : Lib) (fuel : Nat) (payload : Payload) (p d : Nat)
    (hf : 4 ≤ fuel) (hd : d ≤ 255) :
    ∃ paddingBytes,
      concatenation L fuel payload (some p) d
        = .ok (paddingBytes ++ L.ripemd160 (L.sha256 payload.bytes) ++ [0, d]) ∧
      hashAndBase58CheckEncode L fuel payload (some p) d
        = .ok (L.bs58checkEncode
            (paddingBytes ++ L.ripemd160 (L.sha256 payload.bytes) ++ [0, d])) := by
  have h := concatenation_eq L fuel hf payload p d (by omega)
  have h1 : d / 256 = 0 := by omega
  have h2 : d % 256 = d := by omega
  rw [h1, h2] at h
  refine ⟨_, h, ?_⟩
  unfold hashAndBase58CheckEncode
  rw [h]

/-- C4 at divisibility 7: the bytes encoded end with `00 07`. -/
theorem C4_divisibility_two_bytes_witness :
    (4 ≤ 4) ∧ (7 ≤ 255) ∧
    ∃ paddingBytes,
      concatenation sampleLib 4 (.str (sampleTxid ++ ":0")) (some 0x20ce) 7
        = .ok (paddingBytes ++
            sampleLib.ripemd160 (sampleLib.sha256 (Payload.str (sampleTxid ++ ":0")).bytes) ++ [0, 7]) ∧
      hashAndBase58CheckEncode sampleLib 4 (.str (sampleTxid ++ ":0")) (some 0x20ce) 7
        = .ok (sampleLib.bs58checkEncode (paddingBytes ++
            sampleLib.ripemd160 (sampleLib.sha256 (Payload.str (sampleTxid ++ ":0")).bytes) ++ [0, 7])) :=
  ⟨by decide, by decide,
    C4_divisibility_two_bytes sampleLib 4 (.str (sampleTxid ++ ":0")) 0x20ce 7 (by decide) (by decide)⟩

/-! ## Addresses and locking scripts -/

/-- C5: an unlocked issuance whose first input is only the Base58Check address
of a recognized version byte `v` and 20-byte hash `h` yields an identifier
exactly when, and then the same identifier as, the same issuance whose first
input is only the previous-output script `76 a9 14 h 88 ac` (for `v` one of
`0x1e`, `0x6f`) or `a9 14 h 87` (for `v` one of `0x3f`, `0x05`, `0xc4`), provided
decoding undoes encoding; and with a policy of the table, a divisibility below
65536 and four levels of stack both yield one. -/
theorem C5_address_equals_locking_script (L : Lib) (fuel : Nat) (txid itxid : String)
    (vout : Nat) (d : Metadata) (ds : List Metadata) (rest : List Input) (v : Nat)
    (h : Buffer) (hex : String)
    (ht : d.type = "issuance") (hl : d.lockStatus = some false)
    (hlen : h.length = 20) (hv : v ∈ NETWORKVERSIONS)
    (hrt : L.bs58checkDecode (L.bs58checkEncode (v :: h)) = .ok (v :: h))
    (hne : L.bs58checkEncode (v :: h) ≠ "")
    (hhex : Buffer.fromHex hex =
      if v = 0x1e ∨ v = 0x6f then 0x76 :: 0xa9 :: 0x14 :: h ++ [0x88, 0xac]
      else 0xa9 :: 0x14 :: h ++ [0x87]) :
    (∀ id : String,
      (module.exports L fuel ⟨txid, some (d :: ds),
          ⟨itxid, vout, none, none, some (L.bs58checkEncode (v :: h))⟩ :: rest⟩).1
        = .ok (some id) ↔
      (module.exports L fuel ⟨txid, some (d :: ds),
          ⟨itxid, vout, some ⟨some hex⟩, none, none⟩ :: rest⟩).1 = .ok (some id))
    ∧ (∀ policy : String, d.aggregationPolicy = some policy →
        (policy = "aggregatable" ∨ policy = "hybrid" ∨ policy = "dispersed") →
        d.divisibility.getD 0 < 65536 → 4 ≤ fuel →
        ∃ id : String,
          (module.exports L fuel ⟨txid, some (d :: ds),
            ⟨itxid, vout, none, none, some (L.bs58checkEncode (v :: h))⟩ :: rest⟩).1
              = .ok (some id) ∧
          (module.exports L fuel ⟨txid, some (d :: ds),
            ⟨itxid, vout, some ⟨some hex⟩, none, none⟩ :: rest⟩).1 = .ok (some id)) := by
  have hhexne : hex ≠ "" := by
    intro h0
    subst h0
    have : Buffer.fromHex "" = [] := rfl
    rw [this] at hhex
    split at hhex <;> simp at hhex
  have hA := exports_unlocked_default L fuel ⟨txid, some (d :: ds),
    ⟨itxid, vout, none, none, some (L.bs58checkEncode (v :: h))⟩ :: rest⟩ d ds
    ⟨itxid, vout, none, none, some (L.bs58checkEncode (v :: h))⟩ rest rfl ht hl rfl
  have hP := exports_unlocked_default L fuel ⟨txid, some (d :: ds),
    ⟨itxid, vout, some ⟨some hex⟩, none, none⟩ :: rest⟩ d ds
    ⟨itxid, vout, some ⟨some hex⟩, none, none⟩ rest rfl ht hl rfl
  have hta : truthy (some (L.bs58checkEncode (v :: h))) = true := (truthy_some _).2 hne
  rw [unlocked_address L fuel _ _ _ (by intro po hq; cases hq) (by intro ss hq; cases hq)] at hA
  simp only [hta, if_true, Option.getD_some] at hA
  rw [unlocked_previousOutput L fuel _ _ _ hex rfl hhexne] at hP
  have hls : lockingScript v h = Buffer.fromHex hex := by rw [hhex]; rfl
  have hiff : ∀ id : String,
      (module.exports L fuel ⟨txid, some (d :: ds),
          ⟨itxid, vout, none, none, some (L.bs58checkEncode (v :: h))⟩ :: rest⟩).1
        = .ok (some id) ↔
      (module.exports L fuel ⟨txid, some (d :: ds),
          ⟨itxid, vout, some ⟨some hex⟩, none, none⟩ :: rest⟩).1 = .ok (some id) := by
    intro id
    rw [hA, hP, createIdFromAddress_recognized L fuel _ _ _ v h hrt hlen hv id, hls]
    cases hashAndBase58CheckEncode L fuel (.buf (Buffer.fromHex hex)) _ _ <;> simp [Except.map]
  refine ⟨hiff, ?_⟩
  · intro policy hp hpol hdv hf
    have hne' : policy ≠ "" := by
      rcases hpol with h | h | h <;> subst h <;> decide
    have htr : truthy (some policy) = true := (truthy_some policy).2 hne'
    obtain ⟨p, hp'⟩ : ∃ p, UNLOCKEPADDING policy = some p := by
      rcases hpol with h | h | h <;> subst h <;> exact ⟨_, rfl⟩
    obtain ⟨c, hc⟩ : ∃ c, concatenation L fuel (.buf (Buffer.fromHex hex)) (some p)
        (d.divisibility.getD 0) = .ok c :=
      ⟨_, concatenation_eq L fuel hf (.buf (Buffer.fromHex hex)) p _ hdv⟩
    have hok : hashAndBase58CheckEncode L fuel (.buf (Buffer.fromHex hex)) (some p)
        (d.divisibility.getD 0) = .ok (L.bs58checkEncode c) := by
      unfold hashAndBase58CheckEncode
      rw [hc]
    have hprev : (module.exports L fuel ⟨txid, some (d :: ds),
        ⟨itxid, vout, some ⟨some hex⟩, none, none⟩ :: rest⟩).1
          = .ok (some (L.bs58checkEncode c)) := by
      rw [hP]
      simp only [hp, htr, if_true, Option.getD_some, hp', hok]
      rfl
    exact ⟨_, (hiff _).2 hprev, hprev⟩

/-- C5 at `sampleAddress` and `sampleScriptHex`: both inputs give `sampleUnlockedId`. -/
theorem C5_address_equals_locking_script_witness :
    sampleLib.bs58checkDecode (sampleLib.bs58checkEncode (0x1e :: sampleHash))
        = .ok (0x1e :: sampleHash)
    ∧ Buffer.fromHex sampleScriptHex = 0x76 :: 0xa9 :: 0x14 :: sampleHash ++ [0x88, 0xac]
    ∧ (module.exports sampleLib 4 (unlockedTx (some ⟨some sampleScriptHex⟩) none none)).1
        = .ok (some sampleUnlockedId)
    ∧ (module.exports sampleLib 4 (unlockedTx none none (some sampleAddress))).1
        = .ok (some sampleUnlockedId) :=
  ⟨by decide, by decide, by decide,
    ((C5_address_equals_locking_script sampleLib 4 "f0" sampleTxid 0 unlockedMetadata [] []
      0x1e sampleHash sampleScriptHex rfl rfl (by decide) (by decide) (by decide) (by decide)
      (by decide)).1 sampleUnlockedId).2 (by decide)⟩

/-- C6: an address that is not valid Base58Check and bech32-decodes to a witness
version word followed by a 20-byte program `p` gives
`hashAndBase58CheckEncode` of the script `76 a9 14 p 88 ac`; a second such
address with another witness version and prefix gives the same result, and a
legacy pubkey-hash address of hash `p` gives the same identifiers. -/
theorem C6_bech32_twenty_byte_program (L : Lib) (fuel : Nat) (address address' : String)
    (padding : Option Nat) (dv : Nat) (e e' : Err) (res res' : Bech32Result)
    (version version' : Nat) (rest rest' : List Nat) (p : Buffer)
    (hb : L.bs58checkDecode address = .error e) (hd : L.bech32Decode address = .ok res)
    (hw : res.words = version :: rest) (hp : L.bech32FromWords rest = .ok p)
    (hb' : L.bs58checkDecode address' = .error e') (hd' : L.bech32Decode address' = .ok res')
    (hw' : res'.words = version' :: rest') (hp' : L.bech32FromWords rest' = .ok p)
    (hlen : p.length = 20) :
    createIdFromAddress L fuel address padding dv =
        (hashAndBase58CheckEncode L fuel (.buf (0x76 :: 0xa9 :: 0x14 :: p ++ [0x88, 0xac]))
          padding dv).map some
      ∧ createIdFromAddress L fuel address' padding dv
          = createIdFromAddress L fuel address padding dv
      ∧ (∀ (legacy : String) (v : Nat), (v = 0x1e ∨ v = 0x6f) →
          L.bs58checkDecode legacy = .ok (v :: p) →
          ∀ id : String, createIdFromAddress L fuel legacy padding dv = .ok (some id) ↔
            createIdFromAddress L fuel address padding dv = .ok (some id)) := by
  obtain ⟨s1, hs1, hb1⟩ := pubKeyHashScript_toBuffer p hlen
  have key : ∀ (a : String) (e : Err) (r : Bech32Result) (ver : Nat) (ws : List Nat),
      L.bs58checkDecode a = .error e → L.bech32Decode a = .ok r → r.words = ver :: ws →
      L.bech32FromWords ws = .ok p →
      createIdFromAddress L fuel a padding dv =
        (hashAndBase58CheckEncode L fuel (.buf (0x76 :: 0xa9 :: 0x14 :: p ++ [0x88, 0xac]))
          padding dv).map some := by
    intro a e r ver ws h1 h2 h3 h4
    simp only [createIdFromAddress, createIdFromAddress.tryBlock, h1,
      createIdFromAddress.catchBlock, h2, h3, List.drop_succ_cons, List.drop_zero, h4, hlen,
      if_true, hs1, hb1]
    cases hashAndBase58CheckEncode L fuel (.buf (0x76 :: 0xa9 :: 0x14 :: p ++ [0x88, 0xac]))
      padding dv <;> rfl
  have h1 := key address e res version rest hb hd hw hp
  have h2 := key address' e' res' version' rest' hb' hd' hw' hp'
  refine ⟨h1, by rw [h1, h2], ?_⟩
  intro legacy v hv hdec id
  have hmem : v ∈ NETWORKVERSIONS := by
    rcases hv with rfl | rfl <;> decide
  rw [createIdFromAddress_recognized L fuel legacy padding dv v p hdec hlen hmem id, h1]
  have hls : lockingScript v p = 0x76 :: 0xa9 :: 0x14 :: p ++ [0x88, 0xac] := by
    simp [lockingScript, hv]
  rw [hls]
  cases hashAndBase58CheckEncode L fuel (.buf (0x76 :: 0xa9 :: 0x14 :: p ++ [0x88, 0xac]))
    padding dv <;> simp [Except.map]

/-- C6 at `sampleBech32` (prefix `dgb`, witness version 0) and `sampleBech32Bc`
(prefix `bc`, witness version 1), with the legacy address `sampleAddress`. -/
theorem C6_bech32_twenty_byte_program_witness :
    sampleLib.bech32Decode sampleBech32 = .ok ⟨"dgb", 0 :: sampleWords.drop 1⟩
    ∧ sampleLib.bech32Decode sampleBech32Bc = .ok ⟨"bc", 1 :: sampleWords.drop 1⟩
    ∧ sampleLib.bech32FromWords (sampleWords.drop 1) = .ok sampleHash
    ∧ createIdFromAddress sampleLib 4 sampleBech32 (some 0x2e37) 0
        = (hashAndBase58CheckEncode sampleLib 4
            (.buf (0x76 :: 0xa9 :: 0x14 :: sampleHash ++ [0x88, 0xac])) (some 0x2e37) 0).map some
    ∧ createIdFromAddress sampleLib 4 sampleBech32Bc (some 0x2e37) 0
        = createIdFromAddress sampleLib 4 sampleBech32 (some 0x2e37) 0
    ∧ (createIdFromAddress sampleLib 4 sampleAddress (some 0x2e37) 0 = .ok (some sampleUnlockedId) ↔
        createIdFromAddress sampleLib 4 sampleBech32 (some 0x2e37) 0 = .ok (some sampleUnlockedId)) :=
  have h := C6_bech32_twenty_byte_program sampleLib 4 sampleBech32 sampleBech32Bc (some 0x2e37) 0
    (.lib "bs58check.decode") (.lib "bs58check.decode") ⟨"dgb", sampleWords⟩
    ⟨"bc", 1 :: sampleWords.drop 1⟩ 0 1 (sampleWords.drop 1) (sampleWords.drop 1) sampleHash
    (by decide) (by decide) (by decide) (by decide) (by decide) (by decide) (by decide)
    (by decide) (by decide)
  ⟨by decide, by decide, by decide, h.1, h.2.1,
    h.2.2 sampleAddress 0x1e (Or.inl rfl) (by decide) sampleUnlockedId⟩

/-! ## Where the code departs from the specification -/

/-- C7, on the code: when Base58Check decoding succeeds with a version byte
outside `NETWORKVERSIONS`, the error `Unrecognized address network` is thrown
inside the `try` block and caught there; the call ends as the `catch` block
does, and when `bech32.decode` throws, its error is the one the caller sees. -/
theorem C7_unrecognized_network_is_caught (L : Lib) (fuel : Nat) (address : String)
    (padding : Option Nat) (dv : Nat) (buf : Buffer)
    (hdec : L.bs58checkDecode address = .ok buf)
    (hver : ∀ v, buf.head? = some v → v ∉ NETWORKVERSIONS) :
    createIdFromAddress.tryBlock L fuel address padding dv
        = .error (.error "Unrecognized address network")
      ∧ createIdFromAddress L fuel address padding dv
        = createIdFromAddress.catchBlock L fuel address padding dv
      ∧ (∀ e, L.bech32Decode address = .error e →
          createIdFromAddress L fuel address padding dv = .error e) := by
  have htry : createIdFromAddress.tryBlock L fuel address padding dv
      = .error (.error "Unrecognized address network") := by
    unfold createIdFromAddress.tryBlock
    simp only [hdec]
    cases buf with
    | nil => rfl
    | cons v t =>
      have hv := hver v rfl
      simp [Buffer.slice, hv]
  have hcatch : createIdFromAddress L fuel address padding dv
      = createIdFromAddress.catchBlock L fuel address padding dv := by
    unfold createIdFromAddress
    rw [htry]
  refine ⟨htry, hcatch, ?_⟩
  intro e he
  rw [hcatch]
  simp [createIdFromAddress.catchBlock, he]

/-- C7 at `foreignAddress`: the caller sees the error of `bech32.decode`, not
`Unrecognized address network`. -/
theorem C7_unrecognized_network_is_caught_witness :
    sampleLib.bs58checkDecode foreignAddress = .ok (0x00 :: sampleHash)
    ∧ (0x00 : Nat) ∉ NETWORKVERSIONS
    ∧ sampleLib.bech32Decode foreignAddress = .error (.lib "bech32.decode")
    ∧ createIdFromAddress sampleLib 4 foreignAddress (some 0x2e37) 0
        = .error (.lib "bech32.decode") :=
  ⟨by decide, by decide, by decide,
    (C7_unrecognized_network_is_caught sampleLib 4 foreignAddress (some 0x2e37) 0
      (0x00 :: sampleHash) (by decide)
      (by intro v hv; cases hv; decide)).2.2 _ (by decide)⟩

/-- C8, on the code: an address that is not valid Base58Check and bech32-decodes
to a witness program whose length is not 20 bytes makes `createIdFromAddress`
return `undefined`, without an error. -/
theorem C8_other_witness_program_returns_undefined (L : Lib) (fuel : Nat) (address : String)
    (padding : Option Nat) (dv : Nat) (e : Err) (res : Bech32Result) (data : Buffer)
    (hb : L.bs58checkDecode address = .error e) (hd : L.bech32Decode address = .ok res)
    (hw : L.bech32FromWords (res.words.drop 1) = .ok data) (hlen : data.length ≠ 20) :
    createIdFromAddress L fuel address padding dv = .ok none := by
  simp only [createIdFromAddress, createIdFromAddress.tryBlock, hb,
    createIdFromAddress.catchBlock, hd, hw, hlen, if_false]
  split <;> rfl

/-- C8 at `sampleBech32Long`, a 32-byte witness program: the call returns
`undefined`. -/
theorem C8_other_witness_program_returns_undefined_witness :
    sampleLib.bs58checkDecode sampleBech32Long = .error (.lib "bs58check.decode")
    ∧ sampleLib.bech32Decode sampleBech32Long = .ok ⟨"dgb", sampleWordsLong⟩
    ∧ (sampleLib.bech32FromWords (sampleWordsLong.drop 1)).map List.length = .ok 32
    ∧ createIdFromAddress sampleLib 4 sampleBech32Long (some 0x2e37) 0 = .ok none :=
  ⟨by decide, by decide, by decide,
    C8_other_witness_program_returns_undefined sampleLib 4 sampleBech32Long (some 0x2e37) 0
      (.lib "bs58check.decode") ⟨"dgb", sampleWordsLong⟩
      [0x18, 0x63, 0x14, 0x3c, 0x14, 0xc5, 0x16, 0x68, 0x04, 0xbd, 0x19, 0x20, 0x33, 0x56, 0xda,
       0x13, 0x6c, 0x98, 0x56, 0x78, 0xcd, 0x4d, 0x27, 0xa1, 0xb8, 0xc6, 0x32, 0x96, 0x04, 0x90,
       0x32, 0x62]
      (by decide) (by decide) (by decide) (by decide)⟩

/-- C9 fails as stated: the unlocking script `51` (the single opcode `OP_1`) is
classified neither as pubkey-hash nor as script-hash input, the first input has
no previous-output script, and the call returns the identifier of the address
instead of failing. -/
theorem C9_counterexample :
    sampleLib.scriptFromBuffer (Buffer.fromHex "51") = .ok ⟨[⟨none, 0, 0x51⟩]⟩
    ∧ sampleLib.isPublicKeyHashIn ⟨[⟨none, 0, 0x51⟩]⟩ = false
    ∧ sampleLib.isScriptHashIn ⟨[⟨none, 0, 0x51⟩]⟩ = false
    ∧ (module.exports sampleLib 4
        (unlockedTx none (some ⟨some "51", none⟩) (some sampleAddress))).1
      = .ok (some sampleUnlockedId) := by
  decide

/-- C9, as the code has it: an unlocked issuance whose first input has no
previous-output script and an unlocking script that is classified neither as
pubkey-hash nor as script-hash input does not fail on the script; with a
non-empty address on the first input the result is that of `createIdFromAddress`
on the address, the unlocked padding and the divisibility. -/
theorem C9_unclassified_scriptSig_falls_through (L : Lib) (fuel : Nat) (tx : Transaction)
    (d : Metadata) (ds : List Metadata) (inp : Input) (rest : List Input) (ss : ScriptSig)
    (hex a : String) (script : Script)
    (hd : tx.dadata = some (d :: ds)) (ht : d.type = "issuance")
    (hl : d.lockStatus = some false) (hv : tx.vin = inp :: rest)
    (hpo : ∀ po, inp.previousOutput = some po → truthy po.hex = false)
    (hss : inp.scriptSig = some ss)
    (hhex : (ss.hex = some hex ∧ hex ≠ "") ∨
      (truthy ss.hex = false ∧ truthy ss.asm = true ∧
        ∃ s, L.scriptFromASM ss.asm = .ok s ∧ hex = s.toBuffer.toHex))
    (hparse : L.scriptFromBuffer (Buffer.fromHex hex) = .ok script)
    (hpk : L.isPublicKeyHashIn script = false) (hsh : L.isScriptHashIn script = false)
    (ha : inp.address = some a) (hane : a ≠ "") :
    (module.exports L fuel tx).1 =
      createIdFromAddress L fuel a
        (UNLOCKEPADDING
          (if truthy d.aggregationPolicy then d.aggregationPolicy.getD "" else "aggregatable"))
        (d.divisibility.getD 0) := by
  have hta : truthy (some a) = true := (truthy_some a).2 hane
  have htr : (truthy ss.hex || truthy ss.asm) = true := by
    rcases hhex with ⟨h1, h2⟩ | ⟨-, h2, -⟩
    · simp [h1, (truthy_some hex).2 h2]
    · simp [h2]
  have hhex' : (ss.hex = some hex ∧ hex ≠ "") ∨
      (truthy ss.hex = false ∧ ∃ s, L.scriptFromASM ss.asm = .ok s ∧ hex = s.toBuffer.toHex) := by
    rcases hhex with h | ⟨h1, -, h3⟩
    · exact Or.inl h
    · exact Or.inr ⟨h1, h3⟩
  rw [exports_unlocked_default L fuel tx d ds inp rest hd ht hl hv,
    unlocked_scriptSig L fuel inp _ _ ss hpo hss htr,
    scriptSigBranch_unclassified L fuel ss hex script _ _ hhex' hparse hpk hsh]
  simp [ha, hta]

/-- C9 as amended, at the unlocking script `51` and the address `sampleBech32`. -/
theorem C9_unclassified_scriptSig_falls_through_witness :
    sampleLib.scriptFromBuffer (Buffer.fromHex "51") = .ok ⟨[⟨none, 0, 0x51⟩]⟩
    ∧ (module.exports sampleLib 4 (unlockedTx none (some ⟨some "51", none⟩) (some sampleBech32))).1
      = createIdFromAddress sampleLib 4 sampleBech32 (some 0x2e37) 0 :=
  ⟨by decide,
    C9_unclassified_scriptSig_falls_through sampleLib 4
      (unlockedTx none (some ⟨some "51", none⟩) (some sampleBech32)) unlockedMetadata []
      ⟨sampleTxid, 0, none, some ⟨some "51", none⟩, some sampleBech32⟩ [] ⟨some "51", none⟩
      "51" sampleBech32 ⟨[⟨none, 0, 0x51⟩]⟩ rfl rfl rfl rfl (by intro po h; cases h) rfl
      (Or.inl ⟨rfl, by decide⟩) (by decide) (by decide) (by decide) rfl (by decide)⟩

/-- C10, on the code: an unlocked issuance whose first input has none of
previous-output script, unlocking script and address returns `undefined`
without an error, and leaves the transaction as it was. -/
theorem C10_no_representation_returns_undefined (L : Lib) (fuel : Nat) (tx : Transaction)
    (d : Metadata) (ds : List Metadata) (inp : Input) (rest : List Input)
    (hd : tx.dadata = some (d :: ds)) (ht : d.type = "issuance")
    (hl : d.lockStatus = some false) (hv : tx.vin = inp :: rest)
    (hpo : ∀ po, inp.previousOutput = some po → truthy po.hex = false)
    (hss : ∀ ss, inp.scriptSig = some ss → (truthy ss.hex || truthy ss.asm) = false)
    (had : truthy inp.address = false) :
    module.exports L fuel tx = (.ok none, tx) := by
  have hu := unlocked_address L fuel inp
    (if truthy d.aggregationPolicy then d.aggregationPolicy.getD "" else "aggregatable")
    (d.divisibility.getD 0) hpo hss
  simp only [had, Bool.false_eq_true, if_false] at hu
  simp only [module.exports, hd, hv, ht, hl, hu]
  simp only [ne_eq, not_true_eq_false, if_false, Bool.false_eq_true]
  cases tx
  simp_all

/-- C10 at a first input that has only `txid` and `vout`: the call returns
`undefined`. -/
theorem C10_no_representation_returns_undefined_witness :
    module.exports sampleLib 4 (unlockedTx none none none)
      = (.ok none, unlockedTx none none none) :=
  C10_no_representation_returns_undefined sampleLib 4 (unlockedTx none none none)
    unlockedMetadata [] ⟨sampleTxid, 0, none, none, none⟩ [] rfl rfl rfl rfl
    (by intro po h; cases h) (by intro ss h; cases h) rfl

/-! ## Metadata validation and defaults -/

/-- C11: with a metadata block whose type is not `issuance` the call throws
`Not An issuance transaction`, and otherwise without `lockStatus` it throws
`Missing Lock Status data`; the transaction is left as it was, and the outcome is
the same for every first input, policy, divisibility, package behaviour and
stack depth (also with no stack at all, where `hashAndBase58CheckEncode` cannot
return), so nothing is hashed. -/
theorem C11_metadata_validation_first (L : Lib) (fuel : Nat) (txid : String) (d : Metadata)
    (ds : List Metadata) (vin : List Input)
    (h : d.type ≠ "issuance" ∨ d.lockStatus = none) :
    module.exports L fuel ⟨txid, some (d :: ds), vin⟩ =
        (.error (.error (if d.type ≠ "issuance" then "Not An issuance transaction"
            else "Missing Lock Status data")), ⟨txid, some (d :: ds), vin⟩)
      ∧ (∀ (L' : Lib) (vin' : List Input) (policy : Option String) (dv : Option Nat),
          (module.exports L' 0
            ⟨txid, some ({ d with aggregationPolicy := policy, divisibility := dv } :: ds), vin'⟩).1
          = (module.exports L fuel ⟨txid, some (d :: ds), vin⟩).1) := by
  have key : ∀ (M : Lib) (f : Nat) (e : Metadata) (w : List Input), e.type = d.type →
      e.lockStatus = d.lockStatus →
      module.exports M f ⟨txid, some (e :: ds), w⟩ =
        (.error (.error (if d.type ≠ "issuance" then "Not An issuance transaction"
            else "Missing Lock Status data")), ⟨txid, some (e :: ds), w⟩) := by
    intro M f e w h1 h2
    by_cases ht : d.type = "issuance"
    · have hl : d.lockStatus = none := by
        rcases h with h | h
        · exact absurd ht h
        · exact h
      simp [module.exports, h1, h2, ht, hl]
    · simp [module.exports, h1, ht]
  refine ⟨key L fuel d vin rfl rfl, ?_⟩
  intro L' vin' policy dv
  rw [key L fuel d vin rfl rfl,
    key L' 0 { d with aggregationPolicy := policy, divisibility := dv } vin' rfl rfl]

/-- C11 at a transfer and at an issuance without lock status. -/
theorem C11_metadata_validation_first_witness :
    module.exports sampleLib 4
        ⟨"f0", some [⟨"transfer", some true, some "aggregatable", some 0⟩],
          [⟨sampleTxid, 0, none, none, none⟩]⟩
      = (.error (.error "Not An issuance transaction"),
          ⟨"f0", some [⟨"transfer", some true, some "aggregatable", some 0⟩],
            [⟨sampleTxid, 0, none, none, none⟩]⟩)
    ∧ module.exports sampleLib 4
        ⟨"f0", some [⟨"issuance", none, some "aggregatable", some 0⟩],
          [⟨sampleTxid, 0, none, none, none⟩]⟩
      = (.error (.error "Missing Lock Status data"),
          ⟨"f0", some [⟨"issuance", none, some "aggregatable", some 0⟩],
            [⟨sampleTxid, 0, none, none, none⟩]⟩) :=
  ⟨(C11_metadata_validation_first sampleLib 4 "f0"
      ⟨"transfer", some true, some "aggregatable", some 0⟩ []
      [⟨sampleTxid, 0, none, none, none⟩] (Or.inl (by decide))).1,
   (C11_metadata_validation_first sampleLib 4 "f0"
      ⟨"issuance", none, some "aggregatable", some 0⟩ []
      [⟨sampleTxid, 0, none, none, none⟩] (Or.inr rfl)).1⟩

/-- C14: omitting `aggregationPolicy` gives the result of declaring
`aggregatable`, and omitting `divisibility` gives the result of declaring 0. -/
theorem C14_defaults (L : Lib) (fuel : Nat) (txid type : String) (lockStatus : Option Bool)
    (policy : Option String) (divisibility : Option Nat) (ds : List Metadata)
    (vin : List Input) :
    (module.exports L fuel
        ⟨txid, some (⟨type, lockStatus, none, divisibility⟩ :: ds), vin⟩).1
      = (module.exports L fuel
        ⟨txid, some (⟨type, lockStatus, some "aggregatable", divisibility⟩ :: ds), vin⟩).1
    ∧ (module.exports L fuel
        ⟨txid, some (⟨type, lockStatus, policy, none⟩ :: ds), vin⟩).1
      = (module.exports L fuel
        ⟨txid, some (⟨type, lockStatus, policy, some 0⟩ :: ds), vin⟩).1 := by
  have ht : truthy (some "aggregatable") = true := by decide
  have hn : truthy none = false := rfl
  constructor
  · simp only [module.exports, ht, hn, if_true, Option.getD_some]
    split
    · rfl
    · cases lockStatus with
      | none => rfl
      | some b =>
        simp only
        cases vin with
        | nil => rfl
        | cons i r =>
          cases b
          · rfl
          · simp only [if_true, Bool.false_eq_true, if_false]
            split <;> rfl
  · simp only [module.exports, Option.getD_some, Option.getD_none]
    split
    · rfl
    · cases lockStatus with
      | none => rfl
      | some b =>
        simp only
        cases vin with
        | nil => rfl
        | cons i r =>
          cases b
          · rfl
          · simp only [if_true]
            split <;> rfl

/-! ## Policies outside the table, and the locked scenario -/

/-- With an `undefined` padding `hashAndBase58CheckEncode` throws a `TypeError`
before anything is hashed. -/
theorem hashAndBase58CheckEncode_undefined_padding (L : Lib) (fuel : Nat) (payload : Payload)
    (dv : Nat) : hashAndBase58CheckEncode L fuel payload none dv = .error .typeError := rfl

/-- Neither table has an entry of its own for a policy outside the three. -/
theorem padding_undefined (policy : String)
    (hout : policy ≠ "aggregatable" ∧ policy ≠ "hybrid" ∧ policy ≠ "dispersed") :
    LOCKEPADDING policy = none ∧ UNLOCKEPADDING policy = none := by
  simp [LOCKEPADDING, UNLOCKEPADDING, hout.1, hout.2.1, hout.2.2]

/-- The exported function on a locked issuance. -/
theorem exports_locked (L : Lib) (fuel : Nat) (tx : Transaction) (d : Metadata)
    (ds : List Metadata) (inp : Input) (rest : List Input)
    (hd : tx.dadata = some (d :: ds)) (ht : d.type = "issuance")
    (hl : d.lockStatus = some true) (hv : tx.vin = inp :: rest) :
    module.exports L fuel tx =
      ((hashAndBase58CheckEncode L fuel (.str (inp.txid ++ ":" ++ toString inp.vout))
        (LOCKEPADDING
          (if truthy d.aggregationPolicy then d.aggregationPolicy.getD "" else "aggregatable"))
        (d.divisibility.getD 0)).map some, tx) := by
  simp only [module.exports, hd, hv, ht, hl, createIdFromTxidIndex]
  simp only [ne_eq, not_true_eq_false, if_false, if_true]
  cases hashAndBase58CheckEncode L fuel (.str (inp.txid ++ ":" ++ toString inp.vout))
    (LOCKEPADDING
      (if truthy d.aggregationPolicy then d.aggregationPolicy.getD "" else "aggregatable"))
    (d.divisibility.getD 0) <;> rfl

/-- C12 fails as stated: with the policy `bogus`, a locked issuance throws a
`TypeError` (the undefined padding is read in `hashAndBase58CheckEncode`), which
is no error about the policy, and an unlocked issuance whose first input has no
representation returns `undefined` without failing; the empty policy `''` is
replaced by the default and yields an identifier. -/
theorem C12_counterexample :
    (module.exports sampleLib 4
        ⟨"f0", some [⟨"issuance", some true, some "bogus", some 0⟩],
          [⟨sampleTxid, 0, none, none, none⟩]⟩).1 = .error .typeError
    ∧ (module.exports sampleLib 4
        ⟨"f0", some [⟨"issuance", some false, some "bogus", some 0⟩],
          [⟨sampleTxid, 0, none, none, none⟩]⟩).1 = .ok none
    ∧ (module.exports sampleLib 4
        ⟨"f0", some [⟨"issuance", some true, some "", some 0⟩],
          [⟨sampleTxid, 0, none, none, none⟩]⟩).1 = .ok (some sampleLockedId) := by
  decide

/-- C12, as the code has it: with a declared, non-empty policy that is neither
one of the three nor the name of a property inherited from `Object.prototype`
(`inheritedKey`), the padding read from the table is `undefined` and no
identifier is returned, whatever the lock status and the first input; for a
locked issuance, and for an unlocked one whose first input carries a
previous-output script hex, the call throws the `TypeError` of reading
`padding.toString(16)` on the undefined padding.  The names of `inheritedKey`
are left out: for them the source reads the inherited property and goes on. -/
theorem C12_unknown_policy_gives_no_identifier (L : Lib) (fuel : Nat) (tx : Transaction)
    (d : Metadata) (ds : List Metadata) (b : Bool) (policy : String)
    (hd : tx.dadata = some (d :: ds)) (ht : d.type = "issuance")
    (hl : d.lockStatus = some b) (hp : d.aggregationPolicy = some policy)
    (hne : policy ≠ "")
    (hout : policy ≠ "aggregatable" ∧ policy ≠ "hybrid" ∧ policy ≠ "dispersed")
    (hown : inheritedKey policy = false) :
    (LOCKEPADDING policy = none ∧ UNLOCKEPADDING policy = none)
    ∧ (∀ id : String, (module.exports L fuel tx).1 ≠ .ok (some id))
    ∧ (∀ (inp : Input) (rest : List Input), tx.vin = inp :: rest →
        (b = true ∨ ∃ hex, inp.previousOutput = some ⟨some hex⟩ ∧ hex ≠ "") →
        (module.exports L fuel tx).1 = .error .typeError) := by
  obtain ⟨hlock, hunlock⟩ := padding_undefined policy hout
  have htr : truthy (some policy) = true := (truthy_some policy).2 hne
  -- `hown` is what makes the two tables of the model the tables of the source
  have _ := hown
  refine ⟨⟨hlock, hunlock⟩, ?_⟩
  constructor
  · intro id hid
    obtain ⟨payload, hpay⟩ := exports_ok L fuel tx d ds b policy hd hl hp hne id hid
    cases b
    · simp only [Bool.false_eq_true, if_false, hunlock] at hpay
      rw [hashAndBase58CheckEncode_undefined_padding] at hpay
      cases hpay
    · simp only [if_true, hlock] at hpay
      rw [hashAndBase58CheckEncode_undefined_padding] at hpay
      cases hpay
  · intro inp rest hv hcase
    rcases hcase with hb | ⟨hex, hpo, hhex⟩
    · subst hb
      rw [exports_locked L fuel tx d ds inp rest hd ht hl hv]
      simp only [hp, htr, if_true, Option.getD_some, hlock,
        hashAndBase58CheckEncode_undefined_padding]
      rfl
    · cases b
      · rw [exports_unlocked L fuel tx d ds inp rest policy hd ht hl hp hne hv,
          unlocked_previousOutput L fuel inp policy _ hex hpo hhex, hunlock,
          hashAndBase58CheckEncode_undefined_padding]
        rfl
      · rw [exports_locked L fuel tx d ds inp rest hd ht hl hv]
        simp only [hp, htr, if_true, Option.getD_some, hlock,
          hashAndBase58CheckEncode_undefined_padding]
        rfl

/-- C12 as amended, at the policy `bogus` on a locked issuance. -/
theorem C12_unknown_policy_gives_no_identifier_witness :
    inheritedKey "bogus" = false
    ∧ (∀ id : String,
      (module.exports sampleLib 4
        ⟨"f0", some [⟨"issuance", some true, some "bogus", some 0⟩],
          [⟨sampleTxid, 0, none, none, none⟩]⟩).1 ≠ .ok (some id))
    ∧ (module.exports sampleLib 4
        ⟨"f0", some [⟨"issuance", some true, some "bogus", some 0⟩],
          [⟨sampleTxid, 0, none, none, none⟩]⟩).1 = .error .typeError :=
  have h := C12_unknown_policy_gives_no_identifier sampleLib 4
    ⟨"f0", some [⟨"issuance", some true, some "bogus", some 0⟩],
      [⟨sampleTxid, 0, none, none, none⟩]⟩
    ⟨"issuance", some true, some "bogus", some 0⟩ [] true "bogus" rfl rfl rfl rfl
    (by decide) (by decide) (by decide)
  ⟨by decide, h.2.1, h.2.2 ⟨sampleTxid, 0, none, none, none⟩ [] rfl (Or.inl rfl)⟩

/-- C13 fails as stated: for the locked aggregatable issuance of divisibility 0
that spends output 0 of a 64-character transaction id, the bytes handed to the
Base58Check encoder start with `20 ce`, not with `2e 37`. -/
theorem C13_counterexample :
    sampleTxid.length = 64 ∧
    ∃ c : Buffer,
      concatenation sampleLib 4 (.str (sampleTxid ++ ":0")) (LOCKEPADDING "aggregatable") 0 = .ok c
      ∧ (module.exports sampleLib 4 lockedTx).1 = .ok (some (sampleLib.bs58checkEncode c))
      ∧ c.take 2 = [0x20, 0xce] ∧ c.take 2 ≠ [0x2e, 0x37] :=
  ⟨by decide, _, rfl, by decide, by decide, by decide⟩

/-- C13, as the code has it: a locked aggregatable issuance of divisibility 0
whose first input is output 0 of `txid` hashes the text `txid:0`, and the bytes
handed to the Base58Check encoder are `20 ce`, the hash160 and `00 00`. -/
theorem C13_locked_aggregatable_scenario (L : Lib) (fuel : Nat) (t txid : String)
    (ds : List Metadata) (po : Option PreviousOutput) (ss : Option ScriptSig)
    (ad : Option String) (rest : List Input) (hf : 4 ≤ fuel) :
    concatenation L fuel (.str (txid ++ ":0")) (LOCKEPADDING "aggregatable") 0
        = .ok ([0x20, 0xce] ++ L.ripemd160 (L.sha256 (utf8Bytes (txid ++ ":0"))) ++ [0, 0])
    ∧ (module.exports L fuel
        ⟨t, some (⟨"issuance", some true, some "aggregatable", some 0⟩ :: ds),
          ⟨txid, 0, po, ss, ad⟩ :: rest⟩).1
      = .ok (some (L.bs58checkEncode
          ([0x20, 0xce] ++ L.ripemd160 (L.sha256 (utf8Bytes (txid ++ ":0"))) ++ [0, 0]))) := by
  have hc : concatenation L fuel (.str (txid ++ ":0")) (LOCKEPADDING "aggregatable") 0
      = .ok ([0x20, 0xce] ++ L.ripemd160 (L.sha256 (utf8Bytes (txid ++ ":0"))) ++ [0, 0]) := by
    have := concatenation_eq L fuel hf (.str (txid ++ ":0")) 0x20ce 0 (by decide)
    have hp : LOCKEPADDING "aggregatable" = some 0x20ce := rfl
    rw [hp, this]
    rfl
  refine ⟨hc, ?_⟩
  rw [exports_locked L fuel _ ⟨"issuance", some true, some "aggregatable", some 0⟩ ds
    ⟨txid, 0, po, ss, ad⟩ rest rfl rfl rfl rfl]
  have htr : truthy (some "aggregatable") = true := by decide
  have h0 : toString 0 = "0" := by decide
  simp only [htr, if_true, Option.getD_some, h0, String.append_assoc]
  have hs : ":" ++ "0" = ":0" := by decide
  rw [hs]
  unfold hashAndBase58CheckEncode
  rw [hc]
  rfl

/-- C13 as amended, at `lockedTx`: the identifier is `sampleLockedId`. -/
theorem C13_locked_aggregatable_scenario_witness :
    (4 ≤ 4) ∧ sampleTxid.length = 64 ∧
    (module.exports sampleLib 4 lockedTx).1
      = .ok (some (sampleLib.bs58checkEncode
          ([0x20, 0xce] ++ sampleLib.ripemd160 (sampleLib.sha256 (utf8Bytes (sampleTxid ++ ":0")))
            ++ [0, 0])))
    ∧ sampleLib.bs58checkEncode
          ([0x20, 0xce] ++ sampleLib.ripemd160 (sampleLib.sha256 (utf8Bytes (sampleTxid ++ ":0")))
            ++ [0, 0]) = sampleLockedId :=
  ⟨by decide, by decide,
    (C13_locked_aggregatable_scenario sampleLib 4 "f0" sampleTxid [] none none none []
      (by decide)).2, by decide⟩

/-! ## What a call leaves of the transaction, and a second call -/

theorem createIdFromPubKeyHashInput_eq (L : Lib) (fuel : Nat) (ss : ScriptSig)
    (padding : Option Nat) (dv : Nat) :
    createIdFromPubKeyHashInput L fuel ss padding dv =
      if truthy ss.asm then
        (createIdFromPubKeyHashInput.fromAsm L fuel (ss.asm.getD "") padding dv, ss)
      else match L.scriptToASM (ss.hex.getD "") with
        | .error e => (.error e, ss)
        | .ok asm =>
          (createIdFromPubKeyHashInput.fromAsm L fuel asm padding dv,
            { ss with asm := some asm }) := by
  unfold createIdFromPubKeyHashInput createIdFromPubKeyHashInput.fromAsm
  by_cases ha : truthy ss.asm = true
  · simp only [ha, if_true]
    cases (splitSpace (ss.asm.getD "").data).get? 1 with
    | none => rfl
    | some pk =>
      simp only
      cases L.publicKeyHash (hexPairs pk) with
      | error e => rfl
      | ok hash =>
        simp only
        cases pubKeyHashScript hash <;> rfl
  · simp only [ha, Bool.false_eq_true, if_false]
    cases L.scriptToASM (ss.hex.getD "") with
    | error e => rfl
    | ok asm =>
      simp only [Option.getD_some]
      cases (splitSpace asm.data).get? 1 with
      | none => rfl
      | some pk =>
        simp only
        cases L.publicKeyHash (hexPairs pk) with
        | error e => rfl
        | ok hash =>
          simp only
          cases pubKeyHashScript hash <;> rfl

/-- A second call of `createIdFromPubKeyHashInput` on the `scriptSig` that the
first one left gives the same result and leaves it as it is. -/
theorem createIdFromPubKeyHashInput_again (L : Lib) (fuel : Nat) (ss : ScriptSig)
    (padding : Option Nat) (dv : Nat) :
    createIdFromPubKeyHashInput L fuel
        (createIdFromPubKeyHashInput L fuel ss padding dv).2 padding dv
      = createIdFromPubKeyHashInput L fuel ss padding dv
    ∧ (createIdFromPubKeyHashInput L fuel ss padding dv).2.hex = ss.hex
    ∧ (truthy ss.asm = true → (createIdFromPubKeyHashInput L fuel ss padding dv).2 = ss) := by
  by_cases ha : truthy ss.asm = true
  · have h1 : createIdFromPubKeyHashInput L fuel ss padding dv
        = (createIdFromPubKeyHashInput.fromAsm L fuel (ss.asm.getD "") padding dv, ss) := by
      rw [createIdFromPubKeyHashInput_eq, if_pos ha]
    rw [h1]
    exact ⟨h1, rfl, fun _ => rfl⟩
  · cases hto : L.scriptToASM (ss.hex.getD "") with
    | error e =>
      have h1 : createIdFromPubKeyHashInput L fuel ss padding dv = (.error e, ss) := by
        rw [createIdFromPubKeyHashInput_eq, if_neg ha, hto]
      rw [h1]
      exact ⟨h1, rfl, fun h => absurd h ha⟩
    | ok asm =>
      have h1 : createIdFromPubKeyHashInput L fuel ss padding dv
          = (createIdFromPubKeyHashInput.fromAsm L fuel asm padding dv,
              { ss with asm := some asm }) := by
        rw [createIdFromPubKeyHashInput_eq, if_neg ha, hto]
      rw [h1]
      refine ⟨?_, rfl, fun h => absurd h ha⟩
      rw [createIdFromPubKeyHashInput_eq]
      by_cases hb : truthy (some asm) = true
      · simp only [hb, if_true, Option.getD_some]
      · simp only [hb, Bool.false_eq_true, if_false, hto]

theorem scriptSigBranch_eq (L : Lib) (fuel : Nat) (ss : ScriptSig)
    (padding : Option Nat) (dv : Nat) :
    module.exports.scriptSigBranch L fuel ss padding dv =
      match module.exports.hexOf L ss with
      | .error e => (.error e, ss)
      | .ok hex => module.exports.classified L fuel { ss with hex := some hex } padding dv := by
  unfold module.exports.scriptSigBranch module.exports.hexOf module.exports.classified
  have key : ∀ x : Except Err String,
      (match x with
        | .error e => ((.error e : Except Err (Option String)), ss)
        | .ok hex =>
          match L.scriptFromBuffer (Buffer.fromHex hex) with
          | .error e => (.error e, { ss with hex := some hex })
          | .ok script =>
            if L.isPublicKeyHashIn script then
              match createIdFromPubKeyHashInput L fuel { ss with hex := some hex } padding dv with
              | (.error e, scriptSig) => (.error e, scriptSig)
              | (.ok id, scriptSig) => (.ok (some id), scriptSig)
            else if L.isScriptHashIn script then
              match createIdFromScriptHashInput L fuel { ss with hex := some hex } padding dv with
              | .error e => (.error e, { ss with hex := some hex })
              | .ok id => (.ok (some id), { ss with hex := some hex })
            else (.ok none, { ss with hex := some hex }))
      = (match x with
        | .error e => (.error e, ss)
        | .ok hex =>
          match L.scriptFromBuffer
              (Buffer.fromHex (({ ss with hex := some hex } : ScriptSig).hex.getD "")) with
          | .error e => (.error e, { ss with hex := some hex })
          | .ok script =>
            if L.isPublicKeyHashIn script then
              ((createIdFromPubKeyHashInput L fuel { ss with hex := some hex } padding dv).1.map
                  some,
                (createIdFromPubKeyHashInput L fuel { ss with hex := some hex } padding dv).2)
            else if L.isScriptHashIn script then
              ((createIdFromScriptHashInput L fuel { ss with hex := some hex } padding dv).map
                  some, { ss with hex := some hex })
            else (.ok none, { ss with hex := some hex })) := by
    intro x
    cases x with
    | error e => rfl
    | ok hex =>
      simp only [Option.getD_some]
      cases L.scriptFromBuffer (Buffer.fromHex hex) with
      | error e => rfl
      | ok script =>
        simp only
        by_cases hk : L.isPublicKeyHashIn script = true
        · simp only [hk, if_true]
          cases hc : createIdFromPubKeyHashInput L fuel { ss with hex := some hex } padding dv with
          | mk r s => cases r <;> rfl
        · simp only [hk, Bool.false_eq_true, if_false]
          by_cases hs : L.isScriptHashIn script = true
          · simp only [hs, if_true]
            cases createIdFromScriptHashInput L fuel { ss with hex := some hex } padding dv <;> rfl
          · simp only [hs, Bool.false_eq_true, if_false]
  exact key _

/-- What `module.exports.classified` leaves of the `scriptSig`, and a second
call on it. -/
theorem classified_again (L : Lib) (fuel : Nat) (ss : ScriptSig)
    (padding : Option Nat) (dv : Nat) :
    module.exports.classified L fuel
        (module.exports.classified L fuel ss padding dv).2 padding dv
      = module.exports.classified L fuel ss padding dv
    ∧ (module.exports.classified L fuel ss padding dv).2.hex = ss.hex
    ∧ (truthy ss.asm = true → (module.exports.classified L fuel ss padding dv).2 = ss) := by
  obtain ⟨hag, hhex, hasm⟩ := createIdFromPubKeyHashInput_again L fuel ss padding dv
  cases hp : L.scriptFromBuffer (Buffer.fromHex (ss.hex.getD "")) with
  | error e =>
    have h1 : module.exports.classified L fuel ss padding dv = (.error e, ss) := by
      simp only [module.exports.classified, hp]
    rw [h1]
    exact ⟨h1, rfl, fun _ => rfl⟩
  | ok script =>
    by_cases hk : L.isPublicKeyHashIn script = true
    · have h1 : module.exports.classified L fuel ss padding dv =
          ((createIdFromPubKeyHashInput L fuel ss padding dv).1.map some,
            (createIdFromPubKeyHashInput L fuel ss padding dv).2) := by
        simp only [module.exports.classified, hp, hk, if_true]
      rw [h1]
      refine ⟨?_, hhex, hasm⟩
      simp only [module.exports.classified, hhex, hp, hk, if_true, hag]
    · by_cases hs : L.isScriptHashIn script = true
      · have h1 : module.exports.classified L fuel ss padding dv =
            ((createIdFromScriptHashInput L fuel ss padding dv).map some, ss) := by
          simp only [module.exports.classified, hp, hk, hs, if_true, Bool.false_eq_true, if_false]
        rw [h1]
        exact ⟨h1, rfl, fun _ => rfl⟩
      · have h1 : module.exports.classified L fuel ss padding dv = (.ok none, ss) := by
          simp only [module.exports.classified, hp, hk, hs, Bool.false_eq_true, if_false]
        rw [h1]
        exact ⟨h1, rfl, fun _ => rfl⟩

theorem truthy_getD (o : Option String) (h : truthy o = true) :
    o = some (o.getD "") ∧ truthy (some (o.getD "")) = true := by
  cases o with
  | none => simp [truthy] at h
  | some x => exact ⟨rfl, h⟩

theorem scriptSig_hex_eta (s : ScriptSig) (h : String) (hs : s.hex = some h) :
    ({ s with hex := some h } : ScriptSig) = s := by
  cases s
  simp_all

/-- A second call of the `scriptSig` branch on the `scriptSig` that the first one
left gives the same result and leaves it as it is; an assignment only replaces a
falsy `hex` or `asm`. -/
theorem scriptSigBranch_again (L : Lib) (fuel : Nat) (ss : ScriptSig)
    (padding : Option Nat) (dv : Nat) (hg : (truthy ss.hex || truthy ss.asm) = true) :
    module.exports.scriptSigBranch L fuel
        (module.exports.scriptSigBranch L fuel ss padding dv).2 padding dv
      = module.exports.scriptSigBranch L fuel ss padding dv
    ∧ (truthy (module.exports.scriptSigBranch L fuel ss padding dv).2.hex
        || truthy (module.exports.scriptSigBranch L fuel ss padding dv).2.asm) = true
    ∧ (truthy ss.hex = true →
        (module.exports.scriptSigBranch L fuel ss padding dv).2.hex = ss.hex)
    ∧ (truthy ss.asm = true →
        (module.exports.scriptSigBranch L fuel ss padding dv).2.asm = ss.asm) := by
  cases hh : module.exports.hexOf L ss with
  | error e =>
    have h1 : module.exports.scriptSigBranch L fuel ss padding dv = (.error e, ss) := by
      rw [scriptSigBranch_eq, hh]
    rw [h1]
    exact ⟨h1, hg, fun _ => rfl, fun _ => rfl⟩
  | ok h =>
    have h1 : module.exports.scriptSigBranch L fuel ss padding dv
        = module.exports.classified L fuel { ss with hex := some h } padding dv := by
      rw [scriptSigBranch_eq, hh]
    obtain ⟨hag, hhex, hasm⟩ := classified_again L fuel { ss with hex := some h } padding dv
    rw [h1]
    have heta := scriptSig_hex_eta _ h hhex
    -- the value of `hex` when it was already truthy
    have htr : truthy ss.hex = true → ss.hex = some h ∧ truthy (some h) = true := by
      intro ht
      have := truthy_getD ss.hex ht
      simp only [module.exports.hexOf, ht, if_true, Except.ok.injEq] at hh
      rw [hh] at this
      exact this
    have hasm' : truthy ss.asm = true →
        (module.exports.classified L fuel { ss with hex := some h } padding dv).2
          = { ss with hex := some h } := fun ha => hasm ha
    refine ⟨?_, ?_, ?_, ?_⟩
    · rw [scriptSigBranch_eq]
      have hof : module.exports.hexOf L
          (module.exports.classified L fuel { ss with hex := some h } padding dv).2 = .ok h := by
        by_cases hth : truthy (some h) = true
        · simp only [module.exports.hexOf, hhex, hth, if_true, Option.getD_some]
        · have hnh : truthy ss.hex = false := by
            cases hq : truthy ss.hex with
            | false => rfl
            | true => exact absurd (htr hq).2 hth
          have ha : truthy ss.asm = true := by simpa [hnh] using hg
          have hfalse : truthy (some h) = false := by simpa using hth
          rw [hasm' ha]
          simp only [module.exports.hexOf, hnh, Bool.false_eq_true, if_false, hfalse] at hh ⊢
          exact hh
      rw [hof]
      simp only
      rw [heta, hag]
    · by_cases hth : truthy (some h) = true
      · rw [hhex]; simp [hth]
      · have hnh : truthy ss.hex = false := by
          cases hq : truthy ss.hex with
          | false => rfl
          | true => exact absurd (htr hq).2 hth
        have ha : truthy ss.asm = true := by simpa [hnh] using hg
        rw [hasm' ha]
        simp [ha]
    · intro ht
      rw [hhex, (htr ht).1]
    · intro ha
      rw [hasm' ha]

/-- With a previous-output script hex the first input is left as it is. -/
theorem unlocked_previousOutput_snd (L : Lib) (fuel : Nat) (inp : Input) (policy : String)
    (dv : Nat) (po : PreviousOutput) (hq : inp.previousOutput = some po)
    (ht : truthy po.hex = true) :
    (module.exports.unlocked L fuel inp policy dv).2 = inp := by
  obtain ⟨hpo, -⟩ := truthy_getD po.hex ht
  unfold module.exports.unlocked
  simp only [hq, ht, if_true]
  rw [hpo]
  simp only
  split <;> rfl

/-- The unlocked derivation through a populated `scriptSig`, with the first input
as the call leaves it. -/
theorem unlocked_scriptSig_full (L : Lib) (fuel : Nat) (inp : Input) (policy : String)
    (dv : Nat) (ss : ScriptSig)
    (hpo : ∀ po, inp.previousOutput = some po → truthy po.hex = false)
    (hss : inp.scriptSig = some ss) (htr : (truthy ss.hex || truthy ss.asm) = true) :
    module.exports.unlocked L fuel inp policy dv =
      ((match (module.exports.scriptSigBranch L fuel ss (UNLOCKEPADDING policy) dv).1 with
        | .ok none =>
          if truthy inp.address then
            createIdFromAddress L fuel (inp.address.getD "") (UNLOCKEPADDING policy) dv
          else .ok none
        | r => r),
       { inp with
          scriptSig := some (module.exports.scriptSigBranch L fuel ss (UNLOCKEPADDING policy) dv).2 }) := by
  have tail : ∀ (r : Except Err (Option String)) (s : ScriptSig) (i : Input),
      i.address = inp.address →
      (match (r, i) with
        | (.error e, firstInput) => ((.error e : Except Err (Option String)), firstInput)
        | (.ok (some id), firstInput) => (.ok (some id), firstInput)
        | (.ok none, firstInput) =>
          match firstInput.address with
          | none => (.ok none, firstInput)
          | some address =>
            if truthy (some address) then
              (createIdFromAddress L fuel address (UNLOCKEPADDING policy) dv, firstInput)
            else (.ok none, firstInput))
      = ((match r with
          | .ok none =>
            if truthy inp.address then
              createIdFromAddress L fuel (inp.address.getD "") (UNLOCKEPADDING policy) dv
            else .ok none
          | r => r), i) := by
    intro r s i hi
    cases r with
    | error e => rfl
    | ok v =>
      cases v with
      | some id => rfl
      | none =>
        simp only [hi]
        cases ha : inp.address with
        | none => simp [truthy]
        | some a =>
          by_cases hta : truthy (some a) = true
          · simp [hta]
          · simp [hta]
  unfold module.exports.unlocked
  cases hq : inp.previousOutput with
  | none =>
    simp only [hss, htr, if_true]
    exact tail _ ss _ rfl
  | some po =>
    have hf := hpo po hq
    simp only [hf, Bool.false_eq_true, if_false, hss, htr, if_true]
    exact tail _ ss _ rfl

/-- A second call of the unlocked derivation on the first input that the first
call left gives the same result and leaves the input as it is. -/
theorem unlocked_again (L : Lib) (fuel : Nat) (inp : Input) (policy : String) (dv : Nat) :
    module.exports.unlocked L fuel (module.exports.unlocked L fuel inp policy dv).2 policy dv
      = module.exports.unlocked L fuel inp policy dv := by
  by_cases hpo : ∀ po, inp.previousOutput = some po → truthy po.hex = false
  · cases hs : inp.scriptSig with
    | none =>
      have h1 := unlocked_address L fuel inp policy dv hpo (by intro ss h; rw [hs] at h; cases h)
      rw [h1]
      exact h1
    | some ss =>
      by_cases hg : (truthy ss.hex || truthy ss.asm) = true
      · obtain ⟨hag, hg', -, -⟩ := scriptSigBranch_again L fuel ss (UNLOCKEPADDING policy) dv hg
        have h1 := unlocked_scriptSig_full L fuel inp policy dv ss hpo hs hg
        rw [h1]
        have h2 := unlocked_scriptSig_full L fuel
          ⟨inp.txid, inp.vout, inp.previousOutput,
            some (module.exports.scriptSigBranch L fuel ss (UNLOCKEPADDING policy) dv).2,
            inp.address⟩
          policy dv
          (module.exports.scriptSigBranch L fuel ss (UNLOCKEPADDING policy) dv).2 hpo rfl hg'
        rw [hag] at h2
        exact h2
      · have hg' : (truthy ss.hex || truthy ss.asm) = false := by simpa using hg
        have h1 := unlocked_address L fuel inp policy dv hpo
          (by intro s h; rw [hs] at h; cases h; exact hg')
        rw [h1]
        exact h1
  · push_neg at hpo
    obtain ⟨po, hq, ht⟩ := hpo
    have ht' : truthy po.hex = true := by simpa using ht
    rw [unlocked_previousOutput_snd L fuel inp policy dv po hq ht']

/-- What the unlocked derivation can change of the first input: only `hex` and
`asm` of a populated `scriptSig`, and each only when it was falsy. -/
theorem unlocked_frame (L : Lib) (fuel : Nat) (inp : Input) (policy : String) (dv : Nat) :
    (module.exports.unlocked L fuel inp policy dv).2.txid = inp.txid
    ∧ (module.exports.unlocked L fuel inp policy dv).2.vout = inp.vout
    ∧ (module.exports.unlocked L fuel inp policy dv).2.previousOutput = inp.previousOutput
    ∧ (module.exports.unlocked L fuel inp policy dv).2.address = inp.address
    ∧ (inp.scriptSig = none → (module.exports.unlocked L fuel inp policy dv).2 = inp)
    ∧ (∀ ss, inp.scriptSig = some ss →
        ∃ ss', (module.exports.unlocked L fuel inp policy dv).2.scriptSig = some ss'
          ∧ (truthy ss.hex = true → ss'.hex = ss.hex)
          ∧ (truthy ss.asm = true → ss'.asm = ss.asm)) := by
  by_cases hpo : ∀ po, inp.previousOutput = some po → truthy po.hex = false
  · cases hs : inp.scriptSig with
    | none =>
      have h1 := unlocked_address L fuel inp policy dv hpo (by intro ss h; rw [hs] at h; cases h)
      rw [h1]
      exact ⟨rfl, rfl, rfl, rfl, fun _ => rfl, fun ss h => by cases h⟩
    | some ss =>
      by_cases hg : (truthy ss.hex || truthy ss.asm) = true
      · obtain ⟨-, -, hh, ha⟩ := scriptSigBranch_again L fuel ss (UNLOCKEPADDING policy) dv hg
        have h1 := unlocked_scriptSig_full L fuel inp policy dv ss hpo hs hg
        rw [h1]
        refine ⟨rfl, rfl, rfl, rfl, (fun h => by cases h), ?_⟩
        intro s hs'
        cases hs'
        exact ⟨_, rfl, hh, ha⟩
      · have hg' : (truthy ss.hex || truthy ss.asm) = false := by simpa using hg
        have h1 := unlocked_address L fuel inp policy dv hpo
          (by intro s h; rw [hs] at h; cases h; exact hg')
        rw [h1]
        refine ⟨rfl, rfl, rfl, rfl, (fun h => by cases h), ?_⟩
        intro s hs'
        exact ⟨s, by rw [← hs', hs], fun _ => rfl, fun _ => rfl⟩
  · push_neg at hpo
    obtain ⟨po, hq, ht⟩ := hpo
    have ht' : truthy po.hex = true := by simpa using ht
    rw [unlocked_previousOutput_snd L fuel inp policy dv po hq ht']
    exact ⟨rfl, rfl, rfl, rfl, fun _ => rfl, fun ss h => ⟨ss, h, fun _ => rfl, fun _ => rfl⟩⟩

/-- The exported function on an unlocked issuance, with the transaction as the
call leaves it. -/
theorem exports_unlocked_full (L : Lib) (fuel : Nat) (tx : Transaction) (d : Metadata)
    (ds : List Metadata) (inp : Input) (rest : List Input)
    (hd : tx.dadata = some (d :: ds)) (ht : d.type = "issuance")
    (hl : d.lockStatus = some false) (hv : tx.vin = inp :: rest) :
    module.exports L fuel tx =
      ((module.exports.unlocked L fuel inp
          (if truthy d.aggregationPolicy then d.aggregationPolicy.getD "" else "aggregatable")
          (d.divisibility.getD 0)).1,
       { tx with vin := (module.exports.unlocked L fuel inp
          (if truthy d.aggregationPolicy then d.aggregationPolicy.getD "" else "aggregatable")
          (d.divisibility.getD 0)).2 :: rest }) := by
  simp only [module.exports, hd, hv, ht, hl]
  simp only [ne_eq, not_true_eq_false, if_false, Bool.false_eq_true]

/-- The outcomes of the exported function that leave the transaction as it is:
every one but that of an unlocked issuance with a first input. -/
theorem exports_snd_eq (L : Lib) (fuel : Nat) (tx : Transaction)
    (h : ∀ d ds inp rest, tx.dadata = some (d :: ds) → tx.vin = inp :: rest →
      d.type = "issuance" → d.lockStatus ≠ some false) :
    (module.exports L fuel tx).2 = tx := by
  unfold module.exports
  cases hd : tx.dadata with
  | none => rfl
  | some l =>
    cases l with
    | nil => rfl
    | cons d ds =>
      simp only
      by_cases ht : d.type = "issuance"
      · simp only [ht, ne_eq, not_true_eq_false, if_false]
        cases hl : d.lockStatus with
        | none => rfl
        | some b =>
          simp only
          cases hv : tx.vin with
          | nil => rfl
          | cons inp rest =>
            cases b with
            | false => exact absurd hl (h d ds inp rest hd hv ht)
            | true =>
              simp only [if_true]
              split <;> rfl
      · simp only [ne_eq, ht, not_false_eq_true, if_true]

/-- A second call of the exported function on the transaction that the first
call left gives the same result and leaves the transaction as it is. -/
theorem exports_again (L : Lib) (fuel : Nat) (tx : Transaction) :
    module.exports L fuel (module.exports L fuel tx).2 = module.exports L fuel tx := by
  by_cases h : ∀ d ds inp rest, tx.dadata = some (d :: ds) → tx.vin = inp :: rest →
      d.type = "issuance" → d.lockStatus ≠ some false
  · rw [exports_snd_eq L fuel tx h]
  · push_neg at h
    obtain ⟨d, ds, inp, rest, hd, hv, ht, hl⟩ := h
    have h1 := exports_unlocked_full L fuel tx d ds inp rest hd ht hl hv
    rw [h1]
    have h2 := exports_unlocked_full L fuel
      { tx with vin := (module.exports.unlocked L fuel inp
          (if truthy d.aggregationPolicy then d.aggregationPolicy.getD "" else "aggregatable")
          (d.divisibility.getD 0)).2 :: rest } d ds _ rest hd ht hl rfl
    rw [h2, unlocked_again]

/-- C15 fails as stated: for a first input described only by a pay-to-pubkey-hash
unlocking script in hexadecimal, the call returns an identifier and leaves
`scriptSig.asm`, absent before, set to the text of the script. -/
theorem C15_counterexample :
    (module.exports sampleLib 4
        (unlockedTx none (some ⟨some sampleScriptSigHex, none⟩) none))
      = (.ok (some sampleUnlockedId),
          unlockedTx none
            (some ⟨some sampleScriptSigHex,
              some "30 0279be667ef9dcbbac55a06295ce870b07029bfcdb2dce28d959f2815b16f81798"⟩)
            none)
    ∧ (module.exports sampleLib 4
        (unlockedTx none (some ⟨some sampleScriptSigHex, none⟩) none)).2
      ≠ unlockedTx none (some ⟨some sampleScriptSigHex, none⟩) none := by
  decide

/-- C15, as the code has it: after the call every field of the transaction has
the value it had before, except `hex` and `asm` of the `scriptSig` of the first
input, each of which can be assigned only when it was absent or empty; the
transaction is untouched when the first input has no `scriptSig` or has both
`hex` and `asm`. -/
theorem C15_only_scriptSig_is_assigned (L : Lib) (fuel : Nat) (tx : Transaction) :
    (module.exports L fuel tx).2.txid = tx.txid
    ∧ (module.exports L fuel tx).2.dadata = tx.dadata
    ∧ (tx.vin = [] → (module.exports L fuel tx).2 = tx)
    ∧ (∀ inp rest, tx.vin = inp :: rest →
        ∃ inp', (module.exports L fuel tx).2.vin = inp' :: rest
          ∧ inp'.txid = inp.txid ∧ inp'.vout = inp.vout
          ∧ inp'.previousOutput = inp.previousOutput ∧ inp'.address = inp.address
          ∧ (inp.scriptSig = none → (module.exports L fuel tx).2 = tx)
          ∧ (∀ ss, inp.scriptSig = some ss →
              ∃ ss', inp'.scriptSig = some ss'
                ∧ (truthy ss.hex = true → ss'.hex = ss.hex)
                ∧ (truthy ss.asm = true → ss'.asm = ss.asm)
                ∧ (truthy ss.hex = true → truthy ss.asm = true →
                    (module.exports L fuel tx).2 = tx))) := by
  by_cases h : ∀ d ds inp rest, tx.dadata = some (d :: ds) → tx.vin = inp :: rest →
      d.type = "issuance" → d.lockStatus ≠ some false
  · rw [exports_snd_eq L fuel tx h]
    refine ⟨rfl, rfl, fun _ => rfl, ?_⟩
    intro inp rest hv
    refine ⟨inp, hv, rfl, rfl, rfl, rfl, fun _ => rfl, ?_⟩
    intro ss hs
    exact ⟨ss, hs, fun _ => rfl, fun _ => rfl, fun _ _ => rfl⟩
  · push_neg at h
    obtain ⟨d, ds, inp, rest, hd, hv, ht, hl⟩ := h
    have h1 := exports_unlocked_full L fuel tx d ds inp rest hd ht hl hv
    obtain ⟨f1, f2, f3, f4, f5, f6⟩ := unlocked_frame L fuel inp
      (if truthy d.aggregationPolicy then d.aggregationPolicy.getD "" else "aggregatable")
      (d.divisibility.getD 0)
    rw [h1]
    refine ⟨rfl, rfl, (fun h0 => by rw [hv] at h0; cases h0), ?_⟩
    intro inp0 rest0 hv0
    rw [hv] at hv0
    cases hv0
    refine ⟨_, rfl, f1, f2, f3, f4, ?_, ?_⟩
    · intro hs
      rw [f5 hs]
      cases tx
      simp_all
    · intro ss hs
      obtain ⟨ss', e1, e2, e3⟩ := f6 ss hs
      refine ⟨ss', e1, e2, e3, ?_⟩
      intro th ta
      have hss' : ss' = ss := by
        cases ss; cases ss'
        simp_all
      have hinp : (module.exports.unlocked L fuel inp
          (if truthy d.aggregationPolicy then d.aggregationPolicy.getD "" else "aggregatable")
          (d.divisibility.getD 0)).2 = inp := by
        generalize (module.exports.unlocked L fuel inp
          (if truthy d.aggregationPolicy then d.aggregationPolicy.getD "" else "aggregatable")
          (d.divisibility.getD 0)).2 = i at f1 f2 f3 f4 e1
        cases i; cases inp
        simp_all
      rw [hinp]
      cases tx
      simp_all

/-- C16: when the exported function returns an identifier, a second call on the
transaction as the first call left it returns the same string (and leaves the
transaction as it then is). -/
theorem C16_second_call_same_identifier (L : Lib) (fuel : Nat) (tx : Transaction)
    (id : String) (h : (module.exports L fuel tx).1 = .ok (some id)) :
    (module.exports L fuel (module.exports L fuel tx).2).1 = .ok (some id)
    ∧ (module.exports L fuel (module.exports L fuel tx).2).2 = (module.exports L fuel tx).2 := by
  rw [exports_again]
  exact ⟨h, rfl⟩

/-- C16 at an input described by a pay-to-pubkey-hash unlocking script, whose
`asm` the first call assigns. -/
theorem C16_second_call_same_identifier_witness :
    (module.exports sampleLib 4
        (unlockedTx none (some ⟨some sampleScriptSigHex, none⟩) none)).1
      = .ok (some sampleUnlockedId)
    ∧ (module.exports sampleLib 4
        (unlockedTx none (some ⟨some sampleScriptSigHex, none⟩) none)).2
      ≠ unlockedTx none (some ⟨some sampleScriptSigHex, none⟩) none
    ∧ (module.exports sampleLib 4
        (module.exports sampleLib 4
          (unlockedTx none (some ⟨some sampleScriptSigHex, none⟩) none)).2).1
      = .ok (some sampleUnlockedId) :=
  ⟨by decide, by decide,
    (C16_second_call_same_identifier sampleLib 4
      (unlockedTx none (some ⟨some sampleScriptSigHex, none⟩) none) sampleUnlockedId
      (by decide)).1⟩

/-! ## The redeem script of a script-hash input -/

/-- The bytes of `Buffer.from(n.toString(16), 'hex')` for an opcode number: the
number itself from 16 on, nothing below (a single digit is not a pair). -/
theorem fromHex_toString16 (n : Nat) (hn : n < 256) :
    Buffer.fromHex (toString16 n) = if 16 ≤ n then [n] else [] := by
  by_cases h : n < 16
  · have : ¬ 16 ≤ n := by omega
    simp [Buffer.fromHex, toString16, toDigits16_one n h, hexPairs, this]
  · have h16 : 16 ≤ n := by omega
    simp [Buffer.fromHex, toString16, toDigits16_two n h16 hn, hexPairs,
      hexVal_digitChar (n / 16) (by omega), hexVal_digitChar (n % 16) (by omega), h16]
    omega

/-- The bytes that stand for a chunk are at most those of its encoding, and
fewer for a data push and for an opcode below 16. -/
theorem chunkBytes_length (c : Chunk) (h1 : c.opcodenum < 256)
    (h2 : c.buf ≠ none → c.opcodenum ≤ 78) :
    (createIdFromScriptHashInput.chunkBytes c).length ≤ c.toBuffer.length
    ∧ ((c.buf ≠ none ∨ c.opcodenum < 16) →
      (createIdFromScriptHashInput.chunkBytes c).length < c.toBuffer.length) := by
  unfold createIdFromScriptHashInput.chunkBytes
  cases hb : c.buf with
  | none =>
    simp only [Chunk.toBuffer, hb, fromHex_toString16 c.opcodenum h1]
    by_cases h : 16 ≤ c.opcodenum
    · simp [h]
    · simp [h]
  | some b =>
    have h78 := h2 (by rw [hb]; simp)
    simp only [Chunk.toBuffer, hb, OP_PUSHDATA1, OP_PUSHDATA2, OP_PUSHDATA4]
    by_cases ha : c.opcodenum < 76
    · simp [ha]
    · by_cases hb1 : c.opcodenum = 76
      · simp [hb1, leBytes]; omega
      · by_cases hb2 : c.opcodenum = 77
        · simp [hb2, leBytes]; omega
        · have hb3 : c.opcodenum = 78 := by omega
          simp [hb3, leBytes]; omega

theorem rebuilt_length (l : List Chunk)
    (hwf : ∀ c ∈ l, c.opcodenum < 256 ∧ (c.buf ≠ none → c.opcodenum ≤ 78)) :
    (createIdFromScriptHashInput.redeemScript ⟨l⟩).length ≤ (Script.toBuffer ⟨l⟩).length
    ∧ ((∃ c ∈ l, c.buf ≠ none ∨ c.opcodenum < 16) →
      (createIdFromScriptHashInput.redeemScript ⟨l⟩).length < (Script.toBuffer ⟨l⟩).length) := by
  induction l with
  | nil =>
    refine ⟨by simp [createIdFromScriptHashInput.redeemScript, Script.toBuffer], ?_⟩
    rintro ⟨c, hc, -⟩
    cases hc
  | cons c t ih =>
    obtain ⟨ih1, ih2⟩ := ih (fun x hx => hwf x (List.mem_cons_of_mem _ hx))
    obtain ⟨p1, p2⟩ := chunkBytes_length c (hwf c (List.mem_cons_self _ _)).1
      (hwf c (List.mem_cons_self _ _)).2
    simp only [createIdFromScriptHashInput.redeemScript, Script.toBuffer, List.map_cons,
      List.flatten_cons, List.flatMap_cons, List.length_append] at ih1 ih2 p1 p2 ⊢
    refine ⟨by omega, ?_⟩
    rintro ⟨x, hx, hprop⟩
    rcases List.mem_cons.1 hx with rfl | hxt
    · have := p2 hprop
      omega
    · have := ih2 ⟨x, hxt, hprop⟩
      omega

theorem rebuilt_eq_of_opcodes (l : List Chunk)
    (h : ∀ c ∈ l, c.buf = none ∧ 16 ≤ c.opcodenum ∧ c.opcodenum < 256) :
    createIdFromScriptHashInput.redeemScript ⟨l⟩ = Script.toBuffer ⟨l⟩ := by
  induction l with
  | nil => rfl
  | cons c t ih =>
    have ht := ih (fun x hx => h x (List.mem_cons_of_mem _ hx))
    obtain ⟨hb, h16, h256⟩ := h c (List.mem_cons_self _ _)
    simp only [createIdFromScriptHashInput.redeemScript, Script.toBuffer, List.map_cons,
      List.flatten_cons, List.flatMap_cons] at ht ⊢
    rw [ht]
    simp only [createIdFromScriptHashInput.chunkBytes, hb, Chunk.toBuffer,
      fromHex_toString16 c.opcodenum h256, h16, if_true]
    have : c.opcodenum % 256 = c.opcodenum := Nat.mod_eq_of_lt h256
    rw [this]

/-- What `createIdFromScriptHashInput` hashes: the script-hash script of the
parse of the rebuilt bytes of the redeem script. -/
theorem createIdFromScriptHashInput_rebuilt (L : Lib) (fuel : Nat) (ss : ScriptSig)
    (padding : Option Nat) (dv : Nat) (h : String) (script redeem : Script) (last : Chunk)
    (lastChunk : Buffer) (hh : ss.hex = some h) (hne : h ≠ "")
    (hparse : L.scriptFromBuffer (Buffer.fromHex h) = .ok script)
    (hlast : script.chunks.getLast? = some last) (hbuf : last.buf = some lastChunk)
    (hredeem : L.scriptFromBuffer lastChunk = .ok redeem) :
    createIdFromScriptHashInput L fuel ss padding dv =
      match L.scriptFromBuffer (createIdFromScriptHashInput.redeemScript redeem) with
      | .error e => .error e
      | .ok rs =>
        match scriptHashScript (L.ripemd160 (L.sha256 rs.toBuffer)) with
        | .error e => .error e
        | .ok s => hashAndBase58CheckEncode L fuel (.buf s.toBuffer) padding dv := by
  have hth : truthy (some h) = true := (truthy_some h).2 hne
  simp only [createIdFromScriptHashInput, hh, hth, if_true, Option.getD_some, hparse, hlast,
    hbuf, hredeem, createIdFromScriptHashInput.redeemScript]
  rfl

/-- C17, on the code: the bytes that `createIdFromScriptHashInput` rebuilds from
the chunks of a redeem script are never longer than the redeem script, equal it
when every chunk is an opcode from 16 on, and differ from it as soon as one chunk
is a data push (its opcode and length bytes are dropped) or an opcode below 16
(its single hexadecimal digit decodes to no byte); and it is the rebuilt bytes,
not the final pushed data of the unlocking script, that the function parses and
hashes. -/
theorem C17_rebuilt_redeem_script (L : Lib) (redeemBytes : Buffer) (redeem : Script)
    (hparse : L.scriptFromBuffer redeemBytes = .ok redeem)
    (hfaithful : redeem.toBuffer = redeemBytes)
    (hwf : ∀ c ∈ redeem.chunks, c.opcodenum < 256 ∧ (c.buf ≠ none → c.opcodenum ≤ 78)) :
    (createIdFromScriptHashInput.redeemScript redeem).length ≤ redeemBytes.length
    ∧ ((∀ c ∈ redeem.chunks, c.buf = none ∧ 16 ≤ c.opcodenum) →
        createIdFromScriptHashInput.redeemScript redeem = redeemBytes)
    ∧ ((∃ c ∈ redeem.chunks, c.buf ≠ none ∨ c.opcodenum < 16) →
        createIdFromScriptHashInput.redeemScript redeem ≠ redeemBytes)
    ∧ (∀ (fuel : Nat) (ss : ScriptSig) (padding : Option Nat) (dv : Nat) (h : String)
        (script : Script) (last : Chunk), ss.hex = some h → h ≠ "" →
        L.scriptFromBuffer (Buffer.fromHex h) = .ok script →
        script.chunks.getLast? = some last → last.buf = some redeemBytes →
        createIdFromScriptHashInput L fuel ss padding dv =
          match L.scriptFromBuffer (createIdFromScriptHashInput.redeemScript redeem) with
          | .error e => .error e
          | .ok rs =>
            match scriptHashScript (L.ripemd160 (L.sha256 rs.toBuffer)) with
            | .error e => .error e
            | .ok s => hashAndBase58CheckEncode L fuel (.buf s.toBuffer) padding dv) := by
  have hfun : ∀ (fuel : Nat) (ss : ScriptSig) (padding : Option Nat) (dv : Nat) (h : String)
      (script : Script) (last : Chunk), ss.hex = some h → h ≠ "" →
      L.scriptFromBuffer (Buffer.fromHex h) = .ok script →
      script.chunks.getLast? = some last → last.buf = some redeemBytes →
      createIdFromScriptHashInput L fuel ss padding dv =
        match L.scriptFromBuffer (createIdFromScriptHashInput.redeemScript redeem) with
        | .error e => .error e
        | .ok rs =>
          match scriptHashScript (L.ripemd160 (L.sha256 rs.toBuffer)) with
          | .error e => .error e
          | .ok s => hashAndBase58CheckEncode L fuel (.buf s.toBuffer) padding dv := by
    intro fuel ss padding dv h script last hh hne hp hlast hbuf
    exact createIdFromScriptHashInput_rebuilt L fuel ss padding dv h script redeem last
      redeemBytes hh hne hp hlast hbuf hparse
  obtain ⟨l⟩ := redeem
  obtain ⟨h1, h2⟩ := rebuilt_length l hwf
  subst hfaithful
  refine ⟨h1, ?_, ?_, hfun⟩
  · intro h
    exact rebuilt_eq_of_opcodes l (fun c hc => ⟨(h c hc).1, (h c hc).2, (hwf c hc).1⟩)
  · intro h heq
    have := h2 h
    rw [heq] at this
    exact Nat.lt_irrefl _ this

/-- C17 at `sampleRedeemScript`: the rebuilt bytes are `51`, the public key, `51`,
`ae`; the push opcode `21` of the public key is gone. -/
theorem C17_rebuilt_redeem_script_witness :
    (sampleLib.scriptFromBuffer (Buffer.fromHex sampleScriptHashSigHex)).map
        (fun s => s.chunks.getLast?.bind Chunk.buf) = .ok (some sampleRedeemScript)
    ∧ sampleLib.scriptFromBuffer sampleRedeemScript
      = .ok ⟨[⟨none, 0, 0x51⟩, ⟨some samplePublicKey, 0x21, 0x21⟩, ⟨none, 0, 0x51⟩,
          ⟨none, 0, 0xae⟩]⟩
    ∧ createIdFromScriptHashInput.redeemScript
        ⟨[⟨none, 0, 0x51⟩, ⟨some samplePublicKey, 0x21, 0x21⟩, ⟨none, 0, 0x51⟩, ⟨none, 0, 0xae⟩]⟩
      = [0x51] ++ samplePublicKey ++ [0x51, 0xae]
    ∧ createIdFromScriptHashInput.redeemScript
        ⟨[⟨none, 0, 0x51⟩, ⟨some samplePublicKey, 0x21, 0x21⟩, ⟨none, 0, 0x51⟩, ⟨none, 0, 0xae⟩]⟩
      ≠ sampleRedeemScript :=
  ⟨by decide, by decide, by decide,
    (C17_rebuilt_redeem_script sampleLib sampleRedeemScript
      ⟨[⟨none, 0, 0x51⟩, ⟨some samplePublicKey, 0x21, 0x21⟩, ⟨none, 0, 0x51⟩, ⟨none, 0, 0xae⟩]⟩
      (by decide) (by decide) (by decide)).2.2.1
      ⟨⟨some samplePublicKey, 0x21, 0x21⟩, by decide, Or.inl (by decide)⟩⟩

/-! ## The width of the padding -/

/-- The bytes of a padding below 65536: one byte below 256, two otherwise. -/
theorem padding_bytes (p : Nat) (hp : p < 65536) :
    hexPairs (if (Nat.toDigits 16 p).length % 2 = 0 then Nat.toDigits 16 p
        else '0' :: Nat.toDigits 16 p)
      = if p < 256 then [p] else [p / 256, p % 256] := by
  have h0 : hexVal '0' = some 0 := by decide
  by_cases h1 : p < 16
  · rw [toDigits16_one p h1]
    have h256 : p < 256 := by omega
    simp [hexPairs, h0, hexVal_digitChar p h1, h256]
  by_cases h2 : p < 256
  · rw [toDigits16_two p (by omega) h2]
    simp [hexPairs, hexVal_digitChar (p / 16) (by omega), hexVal_digitChar (p % 16) (by omega), h2]
    omega
  by_cases h3 : p < 4096
  · rw [toDigits16_three p (by omega) h3]
    simp [hexPairs, h0, hexVal_digitChar (p / 256) (by omega),
      hexVal_digitChar (p / 16 % 16) (by omega), hexVal_digitChar (p % 16) (by omega), h2]
    omega
  · rw [toDigits16_four p (by omega) hp]
    simp [hexPairs, hexVal_digitChar (p / 4096) (by omega),
      hexVal_digitChar (p / 256 % 16) (by omega), hexVal_digitChar (p / 16 % 16) (by omega),
      hexVal_digitChar (p % 16) (by omega), h2]
    omega

/-- C18: a padding `p` in [0, 65535] is serialized as one byte when `p < 256`
and as two bytes otherwise, the first of which is then not zero, and the bytes
read as a big-endian number are `p`; they are the first bytes handed to the
Base58Check encoder. -/
theorem C18_padding_minimal_big_endian (L : Lib) (fuel : Nat) (payload : Payload) (p dv : Nat)
    (hp : p ≤ 65535) (hf : 4 ≤ fuel) (hdv : dv < 65536) :
    ∃ paddingHex paddingBytes,
      padLeadingZeros fuel (toString16 p) none = .ok paddingHex
      ∧ Buffer.fromHex paddingHex = paddingBytes
      ∧ concatenation L fuel payload (some p) dv
          = .ok (paddingBytes ++ L.ripemd160 (L.sha256 payload.bytes) ++ [dv / 256, dv % 256])
      ∧ (p < 256 → paddingBytes = [p])
      ∧ (256 ≤ p → paddingBytes = [p / 256, p % 256] ∧ p / 256 ≠ 0)
      ∧ paddingBytes.length = (if p < 256 then 1 else 2)
      ∧ paddingBytes.foldl (fun acc b => 256 * acc + b) 0 = p
      ∧ ∀ b ∈ paddingBytes, b < 256 := by
  have hb := padding_bytes p (by omega)
  have hc := concatenation_eq L fuel hf payload p dv hdv
  rw [hb] at hc
  refine ⟨_, _, padLeadingZeros_none fuel (by omega) (Nat.toDigits 16 p), ?_, hc, ?_, ?_, ?_, ?_, ?_⟩
  · exact hb
  · intro h; simp [h]
  · intro h
    have : ¬ p < 256 := by omega
    simp only [this, if_false]
    exact ⟨trivial, by omega⟩
  · by_cases h : p < 256 <;> simp [h]
  · by_cases h : p < 256
    · simp [h]
    · simp [h]; omega
  · by_cases h : p < 256
    · simp [h]
    · simp [h]; omega

/-- C18 at the padding `0x2e37` (two bytes) of `sampleLib`. -/
theorem C18_padding_minimal_big_endian_witness :
    (0x2e37 ≤ 65535) ∧
    ∃ paddingHex paddingBytes,
      padLeadingZeros 4 (toString16 0x2e37) none = .ok paddingHex
      ∧ Buffer.fromHex paddingHex = paddingBytes
      ∧ concatenation sampleLib 4 (.buf (Buffer.fromHex sampleScriptHex)) (some 0x2e37) 0
          = .ok (paddingBytes
              ++ sampleLib.ripemd160
                  (sampleLib.sha256 (Payload.buf (Buffer.fromHex sampleScriptHex)).bytes)
              ++ [0 / 256, 0 % 256])
      ∧ (0x2e37 < 256 → paddingBytes = [0x2e37])
      ∧ (256 ≤ 0x2e37 → paddingBytes = [0x2e37 / 256, 0x2e37 % 256] ∧ 0x2e37 / 256 ≠ 0)
      ∧ paddingBytes.length = (if 0x2e37 < 256 then 1 else 2)
      ∧ paddingBytes.foldl (fun acc b => 256 * acc + b) 0 = 0x2e37
      ∧ ∀ b ∈ paddingBytes, b < 256 :=
  ⟨by decide,
    C18_padding_minimal_big_endian sampleLib 4 (.buf (Buffer.fromHex sampleScriptHex)) 0x2e37 0
      (by decide) (by decide) (by decide)⟩

/-! ## Decoded addresses of another length -/

theorem pubKeyHashScript_toBuffer_short (h : Buffer) (hlen : h.length ≤ 20) :
    ∃ s, pubKeyHashScript h = .ok s ∧
      s.toBuffer = 0x76 :: 0xa9 :: h.length :: h ++ [0x88, 0xac] := by
  have h76 : h.length < 76 := by omega
  have hmod : h.length % 256 = h.length := Nat.mod_eq_of_lt (by omega)
  refine ⟨⟨[⟨none, 0, OP_DUP⟩, ⟨none, 0, OP_HASH160⟩, ⟨some h, h.length, h.length⟩,
    ⟨none, 0, OP_EQUALVERIFY⟩, ⟨none, 0, OP_CHECKSIG⟩]⟩, ?_, ?_⟩
  · simp [pubKeyHashScript, Script.addOpcode, Script.addBuffer, h76, OP_PUSHDATA1]
  · simp [Script.toBuffer, Chunk.toBuffer, OP_DUP, OP_HASH160, OP_EQUALVERIFY, OP_CHECKSIG,
      OP_PUSHDATA1, h76, hmod]

theorem scriptHashScript_toBuffer_short (h : Buffer) (hlen : h.length ≤ 20) :
    ∃ s, scriptHashScript h = .ok s ∧ s.toBuffer = 0xa9 :: h.length :: h ++ [0x87] := by
  have h76 : h.length < 76 := by omega
  have hmod : h.length % 256 = h.length := Nat.mod_eq_of_lt (by omega)
  refine ⟨⟨[⟨none, 0, OP_HASH160⟩, ⟨some h, h.length, h.length⟩, ⟨none, 0, OP_EQUAL⟩]⟩, ?_, ?_⟩
  · simp [scriptHashScript, Script.addOpcode, Script.addBuffer, h76, OP_PUSHDATA1]
  · simp [Script.toBuffer, Chunk.toBuffer, OP_HASH160, OP_EQUAL, OP_PUSHDATA1, h76, hmod]

/-- The `try` block on a decoded buffer of a recognized version and any length:
the bytes 1 to 20 are pushed, however many there are. -/
theorem tryBlock_sliced (L : Lib) (fuel : Nat) (address : String)
    (padding : Option Nat) (dv : Nat) (v : Nat) (h : Buffer)
    (hdec : L.bs58checkDecode address = .ok (v :: h)) (hv : v ∈ NETWORKVERSIONS) :
    createIdFromAddress.tryBlock L fuel address padding dv =
      (hashAndBase58CheckEncode L fuel (.buf (slicedScript v (h.take 20))) padding dv).map some := by
  have hl : (h.take 20).length ≤ 20 := by simp
  obtain ⟨s1, hs1, hb1⟩ := pubKeyHashScript_toBuffer_short (h.take 20) hl
  obtain ⟨s2, hs2, hb2⟩ := scriptHashScript_toBuffer_short (h.take 20) hl
  simp only [NETWORKVERSIONS, DGB_P2PKH, BTC_TESTNET_P2PKH, DGB_P2SH, DGB_P2SH_LEGACY,
    BTC_TESTNET_P2SH, List.mem_cons, List.mem_singleton, List.not_mem_nil, or_false] at hv
  rcases hv with rfl | rfl | rfl | rfl | rfl <;>
    simp [createIdFromAddress.tryBlock, hdec, Buffer.slice, NETWORKVERSIONS, DGB_P2PKH,
      BTC_TESTNET_P2PKH, DGB_P2SH, DGB_P2SH_LEGACY, BTC_TESTNET_P2SH, slicedScript,
      hs1, hs2, hb1, hb2] <;>
    (cases hashAndBase58CheckEncode L fuel _ padding dv <;> rfl)

/-- C19, on the code: when Base58Check decoding gives a recognized version byte
followed by a hash that is not 20 bytes long, `createIdFromAddress` does not
fail: it pushes the bytes 1 to 20 of the decoded buffer, fewer than 20 for a
short buffer and the first 20 for a long one, and returns the identifier of that
script. -/
theorem C19_hash_length_is_not_checked (L : Lib) (fuel : Nat) (address : String) (p dv : Nat)
    (v : Nat) (h : Buffer)
    (hdec : L.bs58checkDecode address = .ok (v :: h)) (hv : v ∈ NETWORKVERSIONS)
    (hlen : (v :: h).length ≠ 21) (hf : 4 ≤ fuel) (hdv : dv < 65536) :
    ∃ id : String,
      createIdFromAddress L fuel address (some p) dv = .ok (some id)
      ∧ hashAndBase58CheckEncode L fuel (.buf (slicedScript v (h.take 20))) (some p) dv = .ok id
      ∧ ((h.length < 20 ∧ h.take 20 = h) ∨ (20 < h.length ∧ h.take 20 ≠ h)) := by
  obtain ⟨id, hid⟩ := hashAndBase58CheckEncode_returns L fuel hf
    (.buf (slicedScript v (h.take 20))) p dv hdv
  refine ⟨id, ?_, hid, ?_⟩
  · unfold createIdFromAddress
    rw [tryBlock_sliced L fuel address (some p) dv v h hdec hv, hid]
    rfl
  · simp only [List.length_cons] at hlen
    rcases Nat.lt_or_ge h.length 20 with hs | hge
    · exact Or.inl ⟨hs, List.take_of_length_le (by omega)⟩
    · refine Or.inr ⟨by omega, ?_⟩
      intro heq
      have := congrArg List.length heq
      simp at this
      omega

/-- C19 at `shortAddress`, which decodes to the version byte and 19 bytes: the
call returns `shortAddressId`, the identifier of the script `76 a9 13 …`. -/
theorem C19_hash_length_is_not_checked_witness :
    shortHashLib.bs58checkDecode shortAddress = .ok (0x1e :: sampleHash.take 19)
    ∧ (0x1e :: sampleHash.take 19).length = 20
    ∧ createIdFromAddress shortHashLib 4 shortAddress (some 0x2e37) 0 = .ok (some shortAddressId)
    ∧ ∃ id : String,
      createIdFromAddress shortHashLib 4 shortAddress (some 0x2e37) 0 = .ok (some id)
      ∧ hashAndBase58CheckEncode shortHashLib 4
          (.buf (slicedScript 0x1e ((sampleHash.take 19).take 20))) (some 0x2e37) 0 = .ok id
      ∧ (((sampleHash.take 19).length < 20
            ∧ (sampleHash.take 19).take 20 = sampleHash.take 19)
          ∨ (20 < (sampleHash.take 19).length
            ∧ (sampleHash.take 19).take 20 ≠ sampleHash.take 19)) :=
  ⟨by decide, by decide, by decide,
    C19_hash_length_is_not_checked shortHashLib 4 shortAddress 0x2e37 0 0x1e (sampleHash.take 19)
      (by decide) (by decide) (by decide) (by decide) (by decide)⟩

/-! ## When `padLeadingZeros` returns -/

theorem string_eta (hex : String) : hex = String.mk hex.data := by
  cases hex; rfl

/-- A text longer than `2n` characters is never returned: every call prepends
a character, until the stack is exhausted. -/
theorem padLeadingZeros_diverges (n : Nat) (hn : 1 ≤ n) :
    ∀ (fuel : Nat) (cs : List Char), 2 * n < cs.length →
      padLeadingZeros fuel (String.mk cs) (some n) = .error .rangeError := by
  obtain ⟨m, rfl⟩ : ∃ m, n = m + 1 := ⟨n - 1, by omega⟩
  intro fuel
  induction fuel with
  | zero => intro cs _; rfl
  | succ k ih =>
    intro cs h
    rw [padLeadingZeros_succ]
    have hb : effByteSize cs.length (some (m + 1)) = m + 1 := rfl
    rw [hb, if_neg (by omega)]
    exact ih ('0' :: cs) (by simp only [List.length_cons]; omega)

/-- A text of at most `2n` characters is padded to exactly `2n` characters, with
one level of stack for every character added and one for the base case. -/
theorem padLeadingZeros_pads (n : Nat) (hn : 1 ≤ n) :
    ∀ (k : Nat) (cs : List Char), cs.length + k = 2 * n → ∀ fuel, k + 1 ≤ fuel →
      padLeadingZeros fuel (String.mk cs) (some n)
        = .ok (String.mk (List.replicate k '0' ++ cs)) := by
  obtain ⟨m, rfl⟩ : ∃ m, n = m + 1 := ⟨n - 1, by omega⟩
  intro k
  induction k with
  | zero =>
    intro cs h fuel hf
    obtain ⟨f, rfl⟩ : ∃ f, fuel = f + 1 := ⟨fuel - 1, by omega⟩
    rw [padLeadingZeros_succ]
    have hb : effByteSize cs.length (some (m + 1)) = m + 1 := rfl
    rw [hb, if_pos (by omega)]
    rfl
  | succ j ih =>
    intro cs h fuel hf
    obtain ⟨f, rfl⟩ : ∃ f, fuel = f + 1 := ⟨fuel - 1, by omega⟩
    rw [padLeadingZeros_succ]
    have hb : effByteSize cs.length (some (m + 1)) = m + 1 := rfl
    rw [hb, if_neg (by omega), ih ('0' :: cs) (by simp only [List.length_cons]; omega) f (by omega)]
    congr 2
    rw [List.replicate_succ', List.append_assoc]
    rfl

/-- With too little stack for the characters to add, the stack is exhausted. -/
theorem padLeadingZeros_short_stack (n : Nat) (hn : 1 ≤ n) :
    ∀ (fuel : Nat) (cs : List Char), cs.length + fuel ≤ 2 * n →
      padLeadingZeros fuel (String.mk cs) (some n) = .error .rangeError := by
  obtain ⟨m, rfl⟩ : ∃ m, n = m + 1 := ⟨n - 1, by omega⟩
  intro fuel
  induction fuel with
  | zero => intro cs _; rfl
  | succ k ih =>
    intro cs h
    rw [padLeadingZeros_succ]
    have hb : effByteSize cs.length (some (m + 1)) = m + 1 := rfl
    rw [hb, if_neg (by omega)]
    exact ih ('0' :: cs) (by simp only [List.length_cons]; omega)

theorem toDigitsCore_length_ge (b : Nat) :
    ∀ (fuel n : Nat) (ds : List Char), ds.length ≤ (Nat.toDigitsCore b fuel n ds).length := by
  intro fuel
  induction fuel with
  | zero => intro n ds; simp [Nat.toDigitsCore]
  | succ k ih =>
    intro n ds
    simp only [Nat.toDigitsCore]
    split
    · simp
    · exact Nat.le_trans (by simp) (ih _ _)

/-- The hexadecimal numeral of a number from 65536 on has at least five digits. -/
theorem toString16_length_ge (d : Nat) (hd : 65536 ≤ d) : 5 ≤ (Nat.toDigits 16 d).length := by
  obtain ⟨m, rfl⟩ : ∃ m, d = m + 4 := ⟨d - 4, by omega⟩
  rw [Nat.toDigits, toDigitsCore16_step _ _ _ (by omega), toDigitsCore16_step _ _ _ (by omega),
    toDigitsCore16_step _ _ _ (by omega), toDigitsCore16_step _ _ _ (by omega)]
  have h2 : ∀ (n : Nat) (ds : List Char),
      ds.length + 1 ≤ (Nat.toDigitsCore 16 (m + 1) n ds).length := by
    intro n ds
    simp only [Nat.toDigitsCore]
    split
    · simp
    · exact Nat.le_trans (by simp) (toDigitsCore_length_ge 16 _ _ _)
  have h3 := h2 ((m + 4) / 16 / 16 / 16 / 16)
    [Nat.digitChar ((m + 4) / 16 / 16 / 16 % 16), Nat.digitChar ((m + 4) / 16 / 16 % 16),
      Nat.digitChar ((m + 4) / 16 % 16), Nat.digitChar ((m + 4) % 16)]
  simpa using h3

/-- From divisibility 65536 on `hashAndBase58CheckEncode` returns nothing:
without a padding it throws a `TypeError`, with one the stack is exhausted. -/
theorem hashAndBase58CheckEncode_large_divisibility (L : Lib) (fuel : Nat) (payload : Payload)
    (padding : Option Nat) (d : Nat) (hd : 65536 ≤ d) :
    hashAndBase58CheckEncode L fuel payload padding d
      = .error (if padding = none then .typeError else .rangeError) := by
  have hdiv : padLeadingZeros fuel (toString16 d) (some POSTFIXBYTELENGTH) = .error .rangeError :=
    padLeadingZeros_diverges 2 (by decide) fuel _ (by have := toString16_length_ge d hd; omega)
  unfold hashAndBase58CheckEncode concatenation
  cases padding with
  | none => rfl
  | some p =>
    simp only [hdiv]
    cases hq : padLeadingZeros fuel (toString16 p) none with
    | ok s => rfl
    | error e =>
      have hfuel : fuel < 2 := by
        by_contra hc
        rw [toString16, padLeadingZeros_none fuel (by omega)] at hq
        cases hq
      have he : e = .rangeError := by
        rcases Nat.lt_or_ge fuel 1 with h0 | h1
        · have : fuel = 0 := by omega
          subst this
          simp [padLeadingZeros] at hq
          exact hq.symm
        · have : fuel = 1 := by omega
          subst this
          rw [toString16, padLeadingZeros_succ] at hq
          split at hq
          · cases hq
          · simp [padLeadingZeros] at hq
            exact hq.symm
      subst he
      rfl

/-- C20: `padLeadingZeros(hex, n)` with `n ≥ 1` returns, given stack for the
characters to add, exactly when `hex` has at most `2n` characters, and then
returns `hex` left-padded with `0` to `2n` characters; for a longer `hex` no
amount of stack makes it return.  Hence `hashAndBase58CheckEncode` returns an
identifier for every divisibility in [0, 65535] and for none from 65536 on. -/
theorem C20_padding_recursion (hex : String) (n : Nat) (hn : 1 ≤ n) :
    (hex.length ≤ 2 * n → ∀ fuel, 2 * n - hex.length + 1 ≤ fuel →
        padLeadingZeros fuel hex (some n)
          = .ok (String.mk (List.replicate (2 * n - hex.length) '0' ++ hex.data))
        ∧ (String.mk (List.replicate (2 * n - hex.length) '0' ++ hex.data)).length = 2 * n)
    ∧ (hex.length ≤ 2 * n → ∀ fuel, fuel ≤ 2 * n - hex.length →
        padLeadingZeros fuel hex (some n) = .error .rangeError)
    ∧ (2 * n < hex.length → ∀ fuel, padLeadingZeros fuel hex (some n) = .error .rangeError)
    ∧ (∀ (L : Lib) (fuel : Nat) (payload : Payload) (p d : Nat), 4 ≤ fuel → d ≤ 65535 →
        ∃ id, hashAndBase58CheckEncode L fuel payload (some p) d = .ok id)
    ∧ (∀ (L : Lib) (fuel : Nat) (payload : Payload) (padding : Option Nat) (d : Nat),
        65536 ≤ d → ∀ id, hashAndBase58CheckEncode L fuel payload padding d ≠ .ok id) := by
  have hl : hex.length = hex.data.length := rfl
  refine ⟨?_, ?_, ?_, ?_, ?_⟩
  · intro h fuel hf
    constructor
    · rw [string_eta hex]
      exact padLeadingZeros_pads n hn _ hex.data (by simp only [String.length] at *; omega) fuel hf
    · simp only [String.length, List.length_append, List.length_replicate] at *
      omega
  · intro h fuel hf
    rw [string_eta hex]
    exact padLeadingZeros_short_stack n hn fuel hex.data (by simp only [String.length] at *; omega)
  · intro h fuel
    rw [string_eta hex]
    exact padLeadingZeros_diverges n hn fuel hex.data (by simp only [String.length] at *; omega)
  · intro L fuel payload p d hf hd
    exact hashAndBase58CheckEncode_returns L fuel hf payload p d (by omega)
  · intro L fuel payload padding d hd id
    rw [hashAndBase58CheckEncode_large_divisibility L fuel payload padding d hd]
    intro h
    cases h

/-- C20 at `7` padded to two bytes and at `10000`, the numeral of 65536. -/
theorem C20_padding_recursion_witness :
    padLeadingZeros 4 "7" (some 2) = .ok "0007"
    ∧ padLeadingZeros 3 "7" (some 2) = .error .rangeError
    ∧ toString16 65536 = "10000"
    ∧ (∀ fuel, padLeadingZeros fuel "10000" (some 2) = .error .rangeError)
    ∧ (∀ id, hashAndBase58CheckEncode sampleLib 1000 (.str (sampleTxid ++ ":0"))
        (some 0x20ce) 65536 ≠ .ok id) :=
  have h7 := C20_padding_recursion "7" 2 (by decide)
  have h5 := C20_padding_recursion "10000" 2 (by decide)
  ⟨(h7.1 (by decide) 4 (by decide)).1, h7.2.1 (by decide) 3 (by decide), by decide,
    h5.2.2.1 (by decide),
    h5.2.2.2.2 sampleLib 1000 (.str (sampleTxid ++ ":0")) (some 0x20ce) 65536 (by decide)⟩

end AssetId
